import Mathlib

/-!
# EPANET 3 links: `src/Elements/link.cpp`

A shallow embedding of the base class `Link` of EPANET 3 and of the member
functions defined in `link.cpp`, followed by theorems about them.

Modelling conventions.

* A C++ `double` is an exact rational (`ℚ`): the functions in this file only
  compare, take absolute values and maxima, halve, and divide the constant 200
  by a positive number, so the development is about the arithmetic the code
  writes down, not about rounding.
* `status` and `initStatus` are `int` members; they are `Int` here.
* A member function that mutates `*this` is a function from the link state to
  the new link state (paired with the return value when there is one).
* The virtual member functions `getRe` and `setInitFlow` are overridden by the
  variants (pipe, pump, valve), whose code lives in other files; they are
  parameters of the functions that call them, and so is the string returned by
  the virtual `typeStr`.
* A subscript outside the bounds of the array `linkStatusWords` has no defined
  value in C++; the model gives a call that evaluates one no result (`none`).
  That is a mark of undefinedness, not a behaviour of the program: nothing is
  claimed here about what the program does on such a call.
* The arena of `Utilities/mempool.h` and the three derived classes are
  represented by what the factory needs of them: the list of sizes requested
  from the arena, and the class, storage and `Link` base of a constructed object.
-/

namespace Epanet

/-! ## Constants -/

/-- Modelled from the spec: the status enumeration is declared in `link.h`;
the value of `LINK_CLOSED` is 0. -/
def LINK_CLOSED : Int := 0

/-- Modelled from the spec: the status enumeration is declared in `link.h`;
the value of `LINK_OPEN` is 1. -/
def LINK_OPEN : Int := 1

/-- Modelled from the spec: the status enumeration is declared in `link.h`;
the value of the ACTIVE status is 2. -/
def VALVE_ACTIVE : Int := 2

/-- Modelled from the spec: the status enumeration is declared in `link.h`;
the value of `TEMP_CLOSED` is 3. -/
def TEMP_CLOSED : Int := 3

/-- Flow in a closed link (cfs): `static const double ZERO_FLOW = 1.0e-6`. -/
def ZERO_FLOW : ℚ := 1 / 1000000

/-- Threshold Reynolds number: `static const double RE_THRESH = 200`. -/
def RE_THRESH : ℚ := 200

/-- Minimum flow threshold (cfs): `static const double MIN_THRESH = 1.0e-6`. -/
def MIN_THRESH : ℚ := 1 / 1000000

/-! ## Data model -/

/-- The data members of `Link` that the constructor initialises, in the order
of its initialiser list; `name` is the member inherited from `Element`. The two
node pointers are indices into the node registry, `none` for `nullptr`. -/
structure Link where
  name : String
  rptFlag : Bool
  fromNode : Option Nat
  toNode : Option Nat
  initStatus : Int
  diameter : ℚ
  lossCoeff : ℚ
  initSetting : ℚ
  status : Int
  flowThresh0 : ℚ
  flowThresh : ℚ
  flow : ℚ
  leakage : ℚ
  hLoss : ℚ
  hGrad : ℚ
  setting : ℚ
  quality : ℚ
deriving DecidableEq, Repr

/-- Constructor `Link::Link(string name_)`. -/
def Link.new (name_ : String) : Link :=
  { name := name_
    rptFlag := false
    fromNode := none
    toNode := none
    initStatus := LINK_OPEN
    diameter := 0
    lossCoeff := 0
    initSetting := 1
    status := 0
    flowThresh0 := 0
    flowThresh := 0
    flow := 0
    leakage := 0
    hLoss := 0
    hGrad := 0
    setting := 0
    quality := 0 }

/-! ## Member functions -/

/-- Member function `void Link::initialize(bool reInitFlow)`.

Modelled from the spec: `setInitFlow` is a pure virtual of `Link` whose
overrides are in the variants' files; it "computes a fresh initial flow
estimate", so it is the function giving the new value of `flow` from the link
state it is called on (status and setting already reset, leakage not yet). -/
def Link.initialize (setInitFlow : Link → ℚ) (s : Link) (reInitFlow : Bool) : Link :=
  let s1 := { s with status := s.initStatus }
  let s2 := { s1 with setting := s1.initSetting }
  let s3 :=
    if reInitFlow then
      if s2.status = LINK_CLOSED then { s2 with flow := ZERO_FLOW }
      else { s2 with flow := setInitFlow s2 }
    else s2
  { s3 with leakage := 0 }

/-- Member function `void Link::setFlowThreshold(const double viscos)`; `getRe` is the
variant's Reynolds number function `getRe(q, viscos)`. -/
def Link.setFlowThreshold (getRe : ℚ → ℚ → ℚ) (s : Link) (viscos : ℚ) : Link :=
  let Re1 := getRe 1 viscos
  let qThresh : ℚ := if Re1 > 0 then RE_THRESH / Re1 else 0
  let s1 := { s with flowThresh := max qThresh MIN_THRESH }
  { s1 with flowThresh0 := s1.flowThresh }

/-- Member function `bool Link::reduceFlowThreshold()`: the returned flag and
the new state. -/
def Link.reduceFlowThreshold (s : Link) : Bool × Link :=
  if s.status ≠ LINK_OPEN ∨ s.flowThresh ≤ MIN_THRESH then (false, s)
  else if |s.flow| < s.flowThresh then
    let s1 := { s with flowThresh := |s.flow| / 2 }
    (true, { s1 with flowThresh := max s1.flowThresh MIN_THRESH })
  else (false, s)

/-- Member function `double Link::getUnitHeadLoss()`. -/
def Link.getUnitHeadLoss (s : Link) : ℚ := s.hLoss

/-- The identity and configuration of a link, set when the network is built:
name, end nodes, initial status, diameter, minor loss coefficient and initial
setting. -/
structure LinkConfig where
  name : String
  fromNode : Option Nat
  toNode : Option Nat
  initStatus : Int
  diameter : ℚ
  lossCoeff : ℚ
  initSetting : ℚ
deriving DecidableEq, Repr

/-- The identity and configuration members of a link. -/
def Link.config (s : Link) : LinkConfig :=
  { name := s.name
    fromNode := s.fromNode
    toNode := s.toNode
    initStatus := s.initStatus
    diameter := s.diameter
    lossCoeff := s.lossCoeff
    initSetting := s.initSetting }

/-- Modelled from the spec: the overrides of the pure virtual `setInitFlow` are
in the variants' files; each "computes a fresh initial flow estimate", that is,
a flow computed by the variant's formula `estimate` from the identity and
configuration of the link and not from its runtime state. -/
def freshInitFlow (estimate : LinkConfig → ℚ) (s : Link) : ℚ :=
  estimate s.config

/-! ## Call sequences -/

/-- One step of a caller's interaction with a link: a call of one of the
member functions above, or a write of one of the public members `flow` and
`status` by the solver. -/
inductive LinkOp where
  | callInitialize (reInitFlow : Bool)
  | callSetFlowThreshold (viscos : ℚ)
  | callReduceFlowThreshold
  | writeFlow (q : ℚ)
  | writeStatus (st : Int)
deriving DecidableEq, Repr

/-- Whether a step is a call of a member function (not a write of a public
member by the solver). -/
def LinkOp.isCall : LinkOp → Bool
  | .callInitialize _ => true
  | .callSetFlowThreshold _ => true
  | .callReduceFlowThreshold => true
  | .writeFlow _ => false
  | .writeStatus _ => false

/-- The state after one step. -/
def LinkOp.apply (setInitFlow : Link → ℚ) (getRe : ℚ → ℚ → ℚ) (s : Link) : LinkOp → Link
  | .callInitialize b => Link.initialize setInitFlow s b
  | .callSetFlowThreshold v => Link.setFlowThreshold getRe s v
  | .callReduceFlowThreshold => (Link.reduceFlowThreshold s).2
  | .writeFlow q => { s with flow := q }
  | .writeStatus st => { s with status := st }

/-- The state after a sequence of steps, first step first. -/
def runOps (setInitFlow : Link → ℚ) (getRe : ℚ → ℚ → ℚ) (s : Link) (ops : List LinkOp) : Link :=
  ops.foldl (LinkOp.apply setInitFlow getRe) s

/-- The states after each call when the solver writes the flows `qs` in turn
and calls `reduceFlowThreshold` after each write. -/
def reduceTrace (s : Link) : List ℚ → List Link
  | [] => []
  | q :: qs =>
    let s1 := (Link.reduceFlowThreshold { s with flow := q }).2
    s1 :: reduceTrace s1 qs

/-! ## Status change messages -/

/-- Constant `static const string s_From`. -/
def s_From : String := " status changed from "

/-- Constant `static const string s_To`. -/
def s_To : String := " to "

/-- Table `static const string linkStatusWords[]`, four entries. -/
def linkStatusWords : List String := ["CLOSED", "OPEN", "ACTIVE", "TEMP_CLOSED"]

/-- The subscript expression `linkStatusWords[i]` for an `int` index: the entry
when the index lies inside the array. The code makes no bounds check; outside
the array the C++ expression has no defined value (what the compiled program
reads there depends on the memory layout), and `none` marks that absence of a
defined value. It does not stand for a result the program reports: the
theorems about `writeStatusChange` speak only of indices in 0..3. -/
def linkStatusWordsAt (i : Int) : Option String :=
  if 0 ≤ i then linkStatusWords[i.toNat]? else none

/-- Member function `string Link::writeStatusChange(int oldStatus)`: the
returned string and the link state after the call; `none` when one of the two
table lookups is out of bounds and the call has no defined result. `typeStr` is
the string the variant's virtual `typeStr()` returns. -/
def Link.writeStatusChange (typeStr : String) (s : Link) (oldStatus : Int) :
    Option (String × Link) :=
  match linkStatusWordsAt oldStatus, linkStatusWordsAt s.status with
  | some oldWord, some newWord =>
    some ("          " ++ typeStr ++ " " ++ s.name ++ s_From ++ oldWord ++ s_To ++ newWord, s)
  | _, _ => none

/-- The label the specification gives to each of the four status values
CLOSED = 0, OPEN = 1, ACTIVE = 2, TEMP_CLOSED = 3 (the empty string for any
other number). This follows the specification, not the table in the code. -/
def specStatusLabel (st : Int) : String :=
  if st = 0 then "CLOSED"
  else if st = 1 then "OPEN"
  else if st = 2 then "ACTIVE"
  else if st = 3 then "TEMP_CLOSED"
  else ""

/-- Whether a status is one of the four values CLOSED, OPEN, ACTIVE,
TEMP_CLOSED. -/
def isLinkStatus (st : Int) : Prop :=
  st = LINK_CLOSED ∨ st = LINK_OPEN ∨ st = VALVE_ACTIVE ∨ st = TEMP_CLOSED

instance (st : Int) : Decidable (isLinkStatus st) := by
  unfold isLinkStatus
  infer_instance

/-! ## Factory -/

/-- The concrete classes derived from `Link`. -/
inductive LinkVariant where
  | Pipe
  | Pump
  | Valve
deriving DecidableEq, Repr

/-- Modelled from the spec: the type label each variant's `typeStr()` produces;
the overrides are in the variants' files. The specification names the label
"Pipe" of a pipe; the other two follow the same pattern. -/
def LinkVariant.typeStr : LinkVariant → String
  | .Pipe => "Pipe"
  | .Pump => "Pump"
  | .Valve => "Valve"

/-- The enumerators `PIPE`, `PUMP`, `VALVE` of the link type enumeration, which
is declared in `link.h`: three integer constants, pairwise distinct as the case
labels of one `switch` are. -/
structure LinkTypeCodes where
  PIPE : Int
  PUMP : Int
  VALVE : Int
  distinct : PIPE ≠ PUMP ∧ PIPE ≠ VALVE ∧ PUMP ≠ VALVE

/-- The enumerator that denotes a variant. -/
def LinkTypeCodes.codeOf (codes : LinkTypeCodes) : LinkVariant → Int
  | .Pipe => codes.PIPE
  | .Pump => codes.PUMP
  | .Valve => codes.VALVE

/-- Modelled from the spec: the pooled memory arena of `Utilities/mempool.h`,
a bump allocator; its state is the list of the sizes requested so far, oldest
first. -/
structure MemPool where
  requests : List Nat
deriving DecidableEq, Repr

/-- Modelled from the spec: `MemPool::alloc(size)` hands out the storage that
follows everything handed out before (its offset is the handle returned) and
records the request. -/
def MemPool.alloc (memPool : MemPool) (size : Nat) : Nat × MemPool :=
  (memPool.requests.sum, { requests := memPool.requests ++ [size] })

/-- An object constructed in arena storage: its concrete class, the handle of
its storage and its `Link` base. -/
structure LinkObject where
  variant : LinkVariant
  storage : Nat
  base : Link
deriving DecidableEq, Repr

/-- Modelled from the spec: the constructors `Pipe(name_)`, `Pump(name_)` and
`Valve(name_)` are in the variants' files; each constructs its `Link` base with
`Link(name_)`, and the members a variant adds are not part of this model. -/
def LinkVariant.construct (v : LinkVariant) (storage : Nat) (name_ : String) : LinkObject :=
  { variant := v, storage := storage, base := Link.new name_ }

/-- Static member function
`Link* Link::factory(int type_, string name_, MemPool* memPool)`: the pointer
returned (`none` for `nullptr`) and the arena afterwards. `codes` are the
link type enumerators and `sizeOf v` is `sizeof` of the class of variant `v`. -/
def Link.factory (codes : LinkTypeCodes) (sizeOf : LinkVariant → Nat) (type_ : Int)
    (name_ : String) (memPool : MemPool) : Option LinkObject × MemPool :=
  if type_ = codes.PIPE then
    let a := memPool.alloc (sizeOf LinkVariant.Pipe)
    (some (LinkVariant.construct LinkVariant.Pipe a.1 name_), a.2)
  else if type_ = codes.PUMP then
    let a := memPool.alloc (sizeOf LinkVariant.Pump)
    (some (LinkVariant.construct LinkVariant.Pump a.1 name_), a.2)
  else if type_ = codes.VALVE then
    let a := memPool.alloc (sizeOf LinkVariant.Valve)
    (some (LinkVariant.construct LinkVariant.Valve a.1 name_), a.2)
  else (none, memPool)

/-! ## Sequences of member function calls -/

/-- A call of one of the five member functions of `link.cpp`. -/
inductive LinkCall where
  | doInitialize (reInitFlow : Bool)
  | doSetFlowThreshold (viscos : ℚ)
  | doReduceFlowThreshold
  | doGetUnitHeadLoss
  | doWriteStatusChange (oldStatus : Int)
deriving DecidableEq, Repr

/-- The link state after one call; `none` when the call is a
`writeStatusChange` whose table lookup is out of bounds, where the state after
the call is not defined. -/
def LinkCall.step (setInitFlow : Link → ℚ) (getRe : ℚ → ℚ → ℚ) (typeStr : String) (s : Link) :
    LinkCall → Option Link
  | .doInitialize b => some ( Link.initialize setInitFlow s b)
  | .doSetFlowThreshold v => some (Link.setFlowThreshold getRe s v)
  | .doReduceFlowThreshold => some (Link.reduceFlowThreshold s).2
  | .doGetUnitHeadLoss => some s
  | .doWriteStatusChange oldStatus => (Link.writeStatusChange typeStr s oldStatus).map Prod.snd

/-- The link state after a sequence of calls, first call first. -/
def runCalls (setInitFlow : Link → ℚ) (getRe : ℚ → ℚ → ℚ) (typeStr : String) (s : Link) :
    List LinkCall → Option Link
  | [] => some s
  | c :: cs =>
    match LinkCall.step setInitFlow getRe typeStr s c with
    | some t => runCalls setInitFlow getRe typeStr t cs
    | none => none

/-- How many of the `reduceFlowThreshold` calls of a sequence of steps return
true. -/
def countReductions (setInitFlow : Link → ℚ) (getRe : ℚ → ℚ → ℚ) (s : Link) :
    List LinkOp → Nat
  | [] => 0
  | op :: ops =>
    (if op = LinkOp.callReduceFlowThreshold ∧ (Link.reduceFlowThreshold s).1 = true then 1 else 0)
      + countReductions setInitFlow getRe (LinkOp.apply setInitFlow getRe s op) ops

/-! ## Sample links -/

/-- A valve configured closed, currently open and carrying flow 7 and
leakage 3. -/
def sampleClosedValve : Link :=
  { Link.new "V1" with initStatus := LINK_CLOSED, status := LINK_OPEN, flow := 7, leakage := 3 }

/-- A pipe of diameter 2 configured open, currently open and carrying flow 7
and leakage 3. -/
def sampleOpenPipe : Link :=
  { Link.new "P1" with diameter := 2, status := LINK_OPEN, flow := 7, leakage := 3 }

/-- An open pipe with both thresholds 1/2 whose flow has stalled at -1/4. -/
def sampleStalledPipe : Link :=
  { Link.new "P1" with status := LINK_OPEN, flowThresh := 1 / 2, flowThresh0 := 1 / 2, flow := -1 / 4 }

/-- A pipe named P1 whose status is CLOSED. -/
def sampleClosedPipe : Link :=
  { Link.new "P1" with status := LINK_CLOSED }

/-- Link type enumerators numbered 0, 1, 2. -/
def sampleCodes : LinkTypeCodes :=
  { PIPE := 0, PUMP := 1, VALVE := 2, distinct := by decide }

/-- Class sizes of the three variants, in bytes. -/
def sampleSizeOf : LinkVariant → Nat
  | .Pipe => 200
  | .Pump => 240
  | .Valve => 216

/-- A run on the stalled pipe with writes of flow and status between five
`reduceFlowThreshold` calls. -/
def sampleReductionRun : List LinkOp :=
  [LinkOp.callReduceFlowThreshold, LinkOp.writeFlow (1 / 32), LinkOp.callReduceFlowThreshold,
   LinkOp.writeStatus 0, LinkOp.callReduceFlowThreshold, LinkOp.writeStatus 1, LinkOp.writeFlow 0,
   LinkOp.callReduceFlowThreshold, LinkOp.callReduceFlowThreshold]

/-! ## `reduceFlowThreshold` -/

/-! ### Facts shared by the theorems about `reduceFlowThreshold` -/

theorem reduce_false_state (s : Link) (h : (Link.reduceFlowThreshold s).1 = false) :
    (Link.reduceFlowThreshold s).2 = s := by
  unfold Link.reduceFlowThreshold at h ⊢
  by_cases h1 : s.status ≠ LINK_OPEN ∨ s.flowThresh ≤ MIN_THRESH
  · rw [if_pos h1]
  · rw [if_neg h1] at h ⊢
    by_cases h2 : |s.flow| < s.flowThresh
    · rw [if_pos h2] at h
      simp at h
    · rw [if_neg h2]

theorem reduce_true_state (s : Link) (h : (Link.reduceFlowThreshold s).1 = true) :
    (Link.reduceFlowThreshold s).2 =
      { s with flowThresh := max (|s.flow| / 2) MIN_THRESH } := by
  unfold Link.reduceFlowThreshold at h ⊢
  by_cases h1 : s.status ≠ LINK_OPEN ∨ s.flowThresh ≤ MIN_THRESH
  · rw [if_pos h1] at h
    simp at h
  · rw [if_neg h1] at h ⊢
    by_cases h2 : |s.flow| < s.flowThresh
    · rw [if_pos h2]
    · rw [if_neg h2] at h
      simp at h

theorem reduce_true_iff (s : Link) :
    (Link.reduceFlowThreshold s).1 = true ↔
      (s.status = LINK_OPEN ∧ MIN_THRESH < s.flowThresh ∧ |s.flow| < s.flowThresh) := by
  unfold Link.reduceFlowThreshold
  by_cases h1 : s.status ≠ LINK_OPEN ∨ s.flowThresh ≤ MIN_THRESH
  · rw [if_pos h1]
    refine ⟨fun h => by simp at h, fun h => ?_⟩
    rcases h1 with h1 | h1
    · exact absurd h.1 h1
    · exact absurd h.2.1 (not_lt.mpr h1)
  · rw [if_neg h1]
    have h1' := not_or.mp h1
    by_cases h2 : |s.flow| < s.flowThresh
    · rw [if_pos h2]
      exact ⟨fun _ => ⟨not_not.mp h1'.1, not_le.mp h1'.2, h2⟩, fun _ => rfl⟩
    · rw [if_neg h2]
      exact ⟨fun h => by simp at h, fun h => absurd h.2.2 h2⟩

theorem reduce_cases (s : Link) :
    (Link.reduceFlowThreshold s).2 = s ∨
      ((s.status = LINK_OPEN ∧ MIN_THRESH < s.flowThresh ∧ |s.flow| < s.flowThresh) ∧
        (Link.reduceFlowThreshold s).2 =
          { s with flowThresh := max (|s.flow| / 2) MIN_THRESH }) := by
  cases h : (Link.reduceFlowThreshold s).1
  · exact Or.inl (reduce_false_state s h)
  · exact Or.inr ⟨(reduce_true_iff s).mp h, reduce_true_state s h⟩

theorem reduce_thresh_ge (s : Link) (h : MIN_THRESH ≤ s.flowThresh) :
    MIN_THRESH ≤ (Link.reduceFlowThreshold s).2.flowThresh := by
  rcases reduce_cases s with h1 | ⟨_, h1⟩
  · rw [h1]; exact h
  · rw [h1]; exact le_max_right _ _

theorem reduce_thresh_le (s : Link) :
    (Link.reduceFlowThreshold s).2.flowThresh ≤ s.flowThresh := by
  rcases reduce_cases s with h1 | ⟨⟨_, hm, hf⟩, h1⟩
  · rw [h1]
  · rw [h1]
    have h0 : 0 ≤ |s.flow| := abs_nonneg _
    exact max_le (by linarith) hm.le

theorem reduce_frame (s : Link) :
    (Link.reduceFlowThreshold s).2.status = s.status ∧
    (Link.reduceFlowThreshold s).2.flow = s.flow ∧
    (Link.reduceFlowThreshold s).2.flowThresh0 = s.flowThresh0 ∧
    (Link.reduceFlowThreshold s).2.initStatus = s.initStatus := by
  rcases reduce_cases s with h1 | ⟨_, h1⟩ <;> rw [h1] <;> exact ⟨rfl, rfl, rfl, rfl⟩

/-! ### Facts about `setFlowThreshold` -/

theorem setFlowThreshold_thresh (getRe : ℚ → ℚ → ℚ) (s : Link) (viscos : ℚ) :
    (Link.setFlowThreshold getRe s viscos).flowThresh =
      max (if getRe 1 viscos > 0 then RE_THRESH / getRe 1 viscos else 0) MIN_THRESH ∧
    (Link.setFlowThreshold getRe s viscos).flowThresh0 =
      (Link.setFlowThreshold getRe s viscos).flowThresh := ⟨rfl, rfl⟩

/-! ### Claims about `reduceFlowThreshold` and `setFlowThreshold` -/

/-- C1: `reduceFlowThreshold` returns true exactly when the status is OPEN, the
working threshold is strictly above `MIN_THRESH` (1e-6) and `|flow|` is
strictly below the working threshold; and when it returns true the new working
threshold is `max(|flow|/2, MIN_THRESH)` for the flow at the time of the call. -/
theorem reduceFlowThreshold_spec (s : Link) :
    ((Link.reduceFlowThreshold s).1 = true ↔
      (s.status = LINK_OPEN ∧ MIN_THRESH < s.flowThresh ∧ |s.flow| < s.flowThresh)) ∧
    ((Link.reduceFlowThreshold s).1 = true →
      (Link.reduceFlowThreshold s).2.flowThresh = max (|s.flow| / 2) MIN_THRESH) ∧
    MIN_THRESH = 1 / 1000000 := by
  refine ⟨reduce_true_iff s, fun h => ?_, rfl⟩
  rw [reduce_true_state s h]

/-- C1 at an open pipe with working threshold 1/2 and flow -1/4: the call
returns true and the working threshold becomes 1/8. -/
theorem reduceFlowThreshold_spec_witness :
    (Link.reduceFlowThreshold sampleStalledPipe).1 = true ∧
    (Link.reduceFlowThreshold sampleStalledPipe).2.flowThresh = 1 / 8 := by
  have h : (Link.reduceFlowThreshold sampleStalledPipe).1 = true :=
    (reduceFlowThreshold_spec sampleStalledPipe).1.mpr
      ⟨rfl, by norm_num [sampleStalledPipe, Link.new, MIN_THRESH],
        by norm_num [sampleStalledPipe, Link.new, abs_of_neg]⟩
  refine ⟨h, ?_⟩
  rw [(reduceFlowThreshold_spec sampleStalledPipe).2.1 h]
  norm_num [sampleStalledPipe, Link.new, MIN_THRESH, abs_of_neg]

/-- C2: after `setFlowThreshold(viscos)`, with `Re1 = getRe(1.0, viscos)`, the
working and the nominal threshold are both `max(200 / Re1, 1e-6)` when
`Re1 > 0` and both `1e-6` when `Re1 <= 0`, whatever the link state was before;
and `Re1 = 400` gives 0.5 for both. -/
theorem setFlowThreshold_spec (getRe : ℚ → ℚ → ℚ) (s : Link) (viscos : ℚ) :
    (0 < getRe 1 viscos →
      (Link.setFlowThreshold getRe s viscos).flowThresh =
          max (200 / getRe 1 viscos) (1 / 1000000) ∧
      (Link.setFlowThreshold getRe s viscos).flowThresh0 =
          max (200 / getRe 1 viscos) (1 / 1000000)) ∧
    (getRe 1 viscos ≤ 0 →
      (Link.setFlowThreshold getRe s viscos).flowThresh = 1 / 1000000 ∧
      (Link.setFlowThreshold getRe s viscos).flowThresh0 = 1 / 1000000) ∧
    (getRe 1 viscos = 400 →
      (Link.setFlowThreshold getRe s viscos).flowThresh = 1 / 2 ∧
      (Link.setFlowThreshold getRe s viscos).flowThresh0 = 1 / 2) := by
  obtain ⟨h1, h2⟩ := setFlowThreshold_thresh getRe s viscos
  rw [h2, h1]
  refine ⟨fun h => ?_, fun h => ?_, fun h => ?_⟩
  · rw [if_pos h]
    exact ⟨rfl, rfl⟩
  · rw [if_neg (not_lt.mpr h)]
    have : max (0 : ℚ) MIN_THRESH = 1 / 1000000 := by
      unfold MIN_THRESH
      norm_num
    exact ⟨this, this⟩
  · rw [h]
    have : max (if (400 : ℚ) > 0 then RE_THRESH / 400 else 0) MIN_THRESH = 1 / 2 := by
      unfold MIN_THRESH RE_THRESH
      norm_num
    exact ⟨this, this⟩

/-- C2 for a link with `Re = 400 q / viscos` at viscosity 1, whose thresholds
had been 1/2 and 1/8 before the call: both are 1/2 afterwards. -/
theorem setFlowThreshold_spec_witness :
    (Link.setFlowThreshold (fun q v => 400 * q / v)
        { sampleStalledPipe with flowThresh := 1 / 8 } 1).flowThresh = 1 / 2 ∧
    (Link.setFlowThreshold (fun q v => 400 * q / v)
        { sampleStalledPipe with flowThresh := 1 / 8 } 1).flowThresh0 = 1 / 2 :=
  (setFlowThreshold_spec (fun q v => 400 * q / v)
    { sampleStalledPipe with flowThresh := 1 / 8 } 1).2.2 (by norm_num)

/-! ### Thresholds along call sequences -/

theorem initialize_eq (setInitFlow : Link → ℚ) (s : Link) (b : Bool) :
    Link.initialize setInitFlow s b =
      { s with
        status := s.initStatus
        setting := s.initSetting
        flow :=
          if b = true then
            if s.initStatus = LINK_CLOSED then ZERO_FLOW
            else setInitFlow { s with status := s.initStatus, setting := s.initSetting }
          else s.flow
        leakage := 0 } := by
  unfold Link.initialize
  cases b
  · simp
  · by_cases hc : s.initStatus = LINK_CLOSED
    · simp [hc]
    · simp [hc]

theorem initialize_thresh (setInitFlow : Link → ℚ) (s : Link) (b : Bool) :
    ( Link.initialize setInitFlow s b).flowThresh = s.flowThresh ∧
    ( Link.initialize setInitFlow s b).flowThresh0 = s.flowThresh0 := by
  rw [initialize_eq]
  exact ⟨rfl, rfl⟩

theorem setFlowThreshold_ge (getRe : ℚ → ℚ → ℚ) (s : Link) (viscos : ℚ) :
    MIN_THRESH ≤ (Link.setFlowThreshold getRe s viscos).flowThresh := by
  rw [(setFlowThreshold_thresh getRe s viscos).1]
  exact le_max_right _ _

theorem apply_thresh_le (setInitFlow : Link → ℚ) (getRe : ℚ → ℚ → ℚ) (s : Link) (op : LinkOp)
    (h : s.flowThresh ≤ s.flowThresh0) :
    (LinkOp.apply setInitFlow getRe s op).flowThresh ≤
      (LinkOp.apply setInitFlow getRe s op).flowThresh0 := by
  cases op with
  | callInitialize b =>
    show ( Link.initialize setInitFlow s b).flowThresh ≤ ( Link.initialize setInitFlow s b).flowThresh0
    rw [(initialize_thresh setInitFlow s b).1, (initialize_thresh setInitFlow s b).2]
    exact h
  | callSetFlowThreshold v =>
    show (Link.setFlowThreshold getRe s v).flowThresh ≤ (Link.setFlowThreshold getRe s v).flowThresh0
    rw [(setFlowThreshold_thresh getRe s v).2]
  | callReduceFlowThreshold =>
    show (Link.reduceFlowThreshold s).2.flowThresh ≤ (Link.reduceFlowThreshold s).2.flowThresh0
    rw [(reduce_frame s).2.2.1]
    exact le_trans (reduce_thresh_le s) h
  | writeFlow q => exact h
  | writeStatus st => exact h

theorem apply_thresh_ge (setInitFlow : Link → ℚ) (getRe : ℚ → ℚ → ℚ) (s : Link) (op : LinkOp)
    (h : MIN_THRESH ≤ s.flowThresh) :
    MIN_THRESH ≤ (LinkOp.apply setInitFlow getRe s op).flowThresh := by
  cases op with
  | callInitialize b =>
    show MIN_THRESH ≤ ( Link.initialize setInitFlow s b).flowThresh
    rw [(initialize_thresh setInitFlow s b).1]
    exact h
  | callSetFlowThreshold v => exact setFlowThreshold_ge getRe s v
  | callReduceFlowThreshold => exact reduce_thresh_ge s h
  | writeFlow q => exact h
  | writeStatus st => exact h

theorem runOps_cons (setInitFlow : Link → ℚ) (getRe : ℚ → ℚ → ℚ) (s : Link) (op : LinkOp)
    (ops : List LinkOp) :
    runOps setInitFlow getRe s (op :: ops) =
      runOps setInitFlow getRe (LinkOp.apply setInitFlow getRe s op) ops := rfl

theorem runOps_thresh_le (setInitFlow : Link → ℚ) (getRe : ℚ → ℚ → ℚ) (ops : List LinkOp) :
    ∀ s : Link, s.flowThresh ≤ s.flowThresh0 →
      (runOps setInitFlow getRe s ops).flowThresh ≤ (runOps setInitFlow getRe s ops).flowThresh0 := by
  induction ops with
  | nil => intro s h; exact h
  | cons op ops ih =>
    intro s h
    rw [runOps_cons]
    exact ih _ (apply_thresh_le setInitFlow getRe s op h)

theorem runOps_thresh_ge (setInitFlow : Link → ℚ) (getRe : ℚ → ℚ → ℚ) (ops : List LinkOp) :
    ∀ s : Link, (MIN_THRESH ≤ s.flowThresh ∨ ∃ v, LinkOp.callSetFlowThreshold v ∈ ops) →
      MIN_THRESH ≤ (runOps setInitFlow getRe s ops).flowThresh := by
  induction ops with
  | nil =>
    intro s h
    rcases h with h | ⟨v, hv⟩
    · exact h
    · simp at hv
  | cons op ops ih =>
    intro s h
    rw [runOps_cons]
    apply ih
    rcases h with h | ⟨v, hv⟩
    · exact Or.inl (apply_thresh_ge setInitFlow getRe s op h)
    · rcases List.mem_cons.mp hv with hv | hv
      · left
        rw [← hv]
        exact setFlowThreshold_ge getRe s v
      · exact Or.inr ⟨v, hv⟩

/-- C3, as stated, fails: the freshly constructed link has working threshold 0,
below `MIN_THRESH`, and it stays 0 through `initialize`, writes of flow and
status and `reduceFlowThreshold` as long as `setFlowThreshold` is not called. -/
theorem threshold_invariant_fresh_counterexample :
    ¬ ((runOps (fun _ => 0) (fun _ _ => 0) (Link.new "P1") []).flowThresh ≤
          (runOps (fun _ => 0) (fun _ _ => 0) (Link.new "P1") []).flowThresh0 ∧
        MIN_THRESH ≤ (runOps (fun _ => 0) (fun _ _ => 0) (Link.new "P1") []).flowThresh) ∧
    ¬ (MIN_THRESH ≤ (runOps (fun _ => 0) (fun _ _ => 0) (Link.new "P1")
          [LinkOp.callInitialize true, LinkOp.writeStatus 1, LinkOp.writeFlow (1 / 2),
           LinkOp.callReduceFlowThreshold]).flowThresh) := by
  constructor
  · simp [runOps, Link.new, MIN_THRESH]
  · simp [runOps, LinkOp.apply, Link.reduceFlowThreshold, Link.initialize, Link.new, MIN_THRESH,
      LINK_OPEN, LINK_CLOSED]

/-- C3, amended: in every state reached from the freshly constructed link by a
sequence of `initialize`, `setFlowThreshold`, `reduceFlowThreshold` and writes
of flow and status, the working threshold is at most the nominal threshold; and
when the sequence contains a call of `setFlowThreshold`, the working threshold
is at least `MIN_THRESH`. -/
theorem threshold_invariant (setInitFlow : Link → ℚ) (getRe : ℚ → ℚ → ℚ) (name_ : String)
    (ops : List LinkOp) :
    (runOps setInitFlow getRe (Link.new name_) ops).flowThresh ≤
        (runOps setInitFlow getRe (Link.new name_) ops).flowThresh0 ∧
    ((∃ v, LinkOp.callSetFlowThreshold v ∈ ops) →
      MIN_THRESH ≤ (runOps setInitFlow getRe (Link.new name_) ops).flowThresh) :=
  ⟨runOps_thresh_le setInitFlow getRe ops (Link.new name_) (le_refl _),
   fun h => runOps_thresh_ge setInitFlow getRe ops (Link.new name_) (Or.inr h)⟩

/-- C3, amended, at a concrete call sequence: a pipe-like link with
`Re = 400 q / viscos` whose threshold is set to 1/2 and reduced once. -/
theorem threshold_invariant_witness :
    (∃ v, LinkOp.callSetFlowThreshold v ∈
        [LinkOp.callInitialize true, LinkOp.callSetFlowThreshold 1, LinkOp.writeStatus 1,
         LinkOp.writeFlow (1 / 8), LinkOp.callReduceFlowThreshold]) ∧
    MIN_THRESH ≤ (runOps (fun _ => 1) (fun q v => 400 * q / v) (Link.new "P1")
        [LinkOp.callInitialize true, LinkOp.callSetFlowThreshold 1, LinkOp.writeStatus 1,
         LinkOp.writeFlow (1 / 8), LinkOp.callReduceFlowThreshold]).flowThresh :=
  ⟨⟨1, by simp⟩,
   (threshold_invariant (fun _ => 1) (fun q v => 400 * q / v) "P1"
      [LinkOp.callInitialize true, LinkOp.callSetFlowThreshold 1, LinkOp.writeStatus 1,
       LinkOp.writeFlow (1 / 8), LinkOp.callReduceFlowThreshold]).2 ⟨1, by simp⟩⟩

/-! ### Repeated reductions -/

theorem reduceTrace_length (qs : List ℚ) :
    ∀ s : Link, (reduceTrace s qs).length = qs.length := by
  induction qs with
  | nil => intro s; rfl
  | cons q qs ih =>
    intro s
    simp only [reduceTrace, List.length_cons, ih]

theorem reduceTrace_all_ge (qs : List ℚ) :
    ∀ s : Link, MIN_THRESH ≤ s.flowThresh →
      ∀ t ∈ reduceTrace s qs, MIN_THRESH ≤ t.flowThresh := by
  induction qs with
  | nil =>
    intro s _ t ht
    simp [reduceTrace] at ht
  | cons q qs ih =>
    intro s h t ht
    have h1 : MIN_THRESH ≤ (Link.reduceFlowThreshold { s with flow := q }).2.flowThresh :=
      reduce_thresh_ge { s with flow := q } h
    simp only [reduceTrace, List.mem_cons] at ht
    rcases ht with ht | ht
    · rw [ht]; exact h1
    · exact ih _ h1 t ht

/-- The working thresholds along a concrete run of reductions with flows of
decreasing magnitude: 1/2 is reduced to 1/8, to 1/32, and then to the floor,
where it stays. -/
theorem reduceTrace_example :
    (reduceTrace { Link.new "P1" with status := LINK_OPEN, flowThresh := 1 / 2, flowThresh0 := 1 / 2 }
        [1 / 4, -1 / 16, 1 / 10000000, 0]).map Link.flowThresh =
      [1 / 8, 1 / 32, 1 / 1000000, 1 / 1000000] := by
  norm_num [reduceTrace, Link.reduceFlowThreshold, Link.new, MIN_THRESH, LINK_OPEN, abs_of_nonneg,
    abs_of_neg]

/-- C4: from a link state whose working threshold is at least `MIN_THRESH`,
writing each flow of a finite sequence in turn and calling
`reduceFlowThreshold` after each write gives one state per call, and in each of
them the working threshold is at least `MIN_THRESH`. -/
theorem reduceFlowThreshold_never_below_min (s : Link) (qs : List ℚ)
    (h : MIN_THRESH ≤ s.flowThresh) :
    (reduceTrace s qs).length = qs.length ∧
    ∀ t ∈ reduceTrace s qs, MIN_THRESH ≤ t.flowThresh :=
  ⟨reduceTrace_length qs s, reduceTrace_all_ge qs s h⟩

/-- C4 at an open link with working threshold 1/2 and four flows of decreasing
magnitude. -/
theorem reduceFlowThreshold_never_below_min_witness :
    MIN_THRESH ≤ ({ Link.new "P1" with
        status := LINK_OPEN, flowThresh := 1 / 2, flowThresh0 := 1 / 2 } : Link).flowThresh ∧
    ∀ t ∈ reduceTrace { Link.new "P1" with
        status := LINK_OPEN, flowThresh := 1 / 2, flowThresh0 := 1 / 2 }
        [1 / 4, -1 / 16, 1 / 10000000, 0], MIN_THRESH ≤ t.flowThresh :=
  ⟨by norm_num [MIN_THRESH],
   (reduceFlowThreshold_never_below_min _ [1 / 4, -1 / 16, 1 / 10000000, 0]
      (by norm_num [MIN_THRESH])).2⟩

/-- C5: `reduceFlowThreshold` returns false when the status is not OPEN, or the
working threshold is at or below the floor, or `|flow|` is not below the
working threshold; and whenever it returns false the link state is unchanged
in every field, so that a second call on it returns false again. -/
theorem reduceFlowThreshold_false_noop (s : Link) :
    ((s.status ≠ LINK_OPEN ∨ s.flowThresh ≤ MIN_THRESH ∨ ¬ |s.flow| < s.flowThresh) →
      (Link.reduceFlowThreshold s).1 = false) ∧
    ((Link.reduceFlowThreshold s).1 = false →
      (Link.reduceFlowThreshold s).2 = s ∧
      (Link.reduceFlowThreshold (Link.reduceFlowThreshold s).2).1 = false) := by
  constructor
  · intro h
    cases hr : (Link.reduceFlowThreshold s).1
    · rfl
    · obtain ⟨h1, h2, h3⟩ := (reduce_true_iff s).mp hr
      rcases h with h | h | h
      · exact absurd h1 h
      · exact absurd h2 (not_lt.mpr h)
      · exact absurd h3 h
  · intro h
    refine ⟨reduce_false_state s h, ?_⟩
    rw [reduce_false_state s h]
    exact h

/-- C5 at a closed link: the call returns false and changes nothing. -/
theorem reduceFlowThreshold_false_noop_witness :
    (Link.reduceFlowThreshold { Link.new "P1" with
        status := LINK_CLOSED, flowThresh := 1 / 2, flowThresh0 := 1 / 2 }).1 = false ∧
    (Link.reduceFlowThreshold { Link.new "P1" with
        status := LINK_CLOSED, flowThresh := 1 / 2, flowThresh0 := 1 / 2 }).2 =
      { Link.new "P1" with status := LINK_CLOSED, flowThresh := 1 / 2, flowThresh0 := 1 / 2 } :=
  ⟨(reduceFlowThreshold_false_noop _).1 (Or.inl (by decide)),
   ((reduceFlowThreshold_false_noop _).2
      ((reduceFlowThreshold_false_noop _).1 (Or.inl (by decide)))).1⟩

/-- C6: the threshold set by `setFlowThreshold` is at least `MIN_THRESH` for
every value of `Re1 = getRe(1.0, viscos)`, and it does not increase when `Re1`
grows: if `0 < Re1` at viscosity `viscos` and `Re1` at viscosity `viscos2` is at
least as large, the threshold for `viscos2` is at most the one for `viscos`. -/
theorem setFlowThreshold_ge_min_antitone (getRe : ℚ → ℚ → ℚ) (s s2 : Link) (viscos viscos2 : ℚ) :
    MIN_THRESH ≤ (Link.setFlowThreshold getRe s viscos).flowThresh ∧
    (0 < getRe 1 viscos → getRe 1 viscos ≤ getRe 1 viscos2 →
      (Link.setFlowThreshold getRe s2 viscos2).flowThresh ≤
        (Link.setFlowThreshold getRe s viscos).flowThresh) := by
  refine ⟨setFlowThreshold_ge getRe s viscos, fun ha hab => ?_⟩
  have hb : 0 < getRe 1 viscos2 := lt_of_lt_of_le ha hab
  rw [(setFlowThreshold_thresh getRe s2 viscos2).1, (setFlowThreshold_thresh getRe s viscos).1,
    if_pos ha, if_pos hb]
  apply max_le_max _ (le_refl _)
  unfold RE_THRESH
  exact div_le_div_of_nonneg_left (by norm_num) ha hab

/-- C6 for a link whose Reynolds number is inversely proportional to the
viscosity: halving the viscosity does not raise the threshold. -/
theorem setFlowThreshold_ge_min_antitone_witness :
    (0 : ℚ) < (fun q v : ℚ => q / v) 1 (1 / 400) ∧
    (Link.setFlowThreshold (fun q v => q / v) (Link.new "P2") (1 / 800)).flowThresh ≤
      (Link.setFlowThreshold (fun q v => q / v) (Link.new "P1") (1 / 400)).flowThresh :=
  ⟨by norm_num,
   (setFlowThreshold_ge_min_antitone (fun q v => q / v) (Link.new "P1") (Link.new "P2")
      (1 / 400) (1 / 800)).2 (by norm_num) (by norm_num)⟩

/-! ## `initialize` -/

theorem initialize_flow_closed (setInitFlow : Link → ℚ) (s : Link)
    (hc : s.initStatus = LINK_CLOSED) :
    ( Link.initialize setInitFlow s true).flow = ZERO_FLOW := by
  rw [initialize_eq]
  show (if true = true then
      if s.initStatus = LINK_CLOSED then ZERO_FLOW
      else setInitFlow { s with status := s.initStatus, setting := s.initSetting }
    else s.flow) = ZERO_FLOW
  rw [if_pos rfl, if_pos hc]

/-- C7: after `initialize(reInitFlow)` the status is the configured initial
status, the setting is the configured initial setting (both configured values
untouched) and the leakage is 0; when `reInitFlow` is true and the initial
status is not CLOSED the flow is the one `setInitFlow` computes on the link
with status and setting already reset, whatever the status was before the
call; when `reInitFlow` is false the flow is unchanged. -/
theorem initialize_spec (setInitFlow : Link → ℚ) (s : Link) (reInitFlow : Bool) :
    ( Link.initialize setInitFlow s reInitFlow).status = s.initStatus ∧
    ( Link.initialize setInitFlow s reInitFlow).setting = s.initSetting ∧
    ( Link.initialize setInitFlow s reInitFlow).initStatus = s.initStatus ∧
    ( Link.initialize setInitFlow s reInitFlow).initSetting = s.initSetting ∧
    ( Link.initialize setInitFlow s reInitFlow).leakage = 0 ∧
    (reInitFlow = true → s.initStatus ≠ LINK_CLOSED →
      ( Link.initialize setInitFlow s reInitFlow).flow =
        setInitFlow { s with status := s.initStatus, setting := s.initSetting }) ∧
    (reInitFlow = false → ( Link.initialize setInitFlow s reInitFlow).flow = s.flow) := by
  rw [initialize_eq]
  refine ⟨rfl, rfl, rfl, rfl, rfl, fun hb hc => ?_, fun hb => ?_⟩
  · show (if reInitFlow = true then _ else _) = _
    rw [if_pos hb, if_neg hc]
  · show (if reInitFlow = true then _ else _) = _
    rw [if_neg (by simp [hb])]

/-- C7 at a link that was closed before the call but whose initial status is
OPEN: the flow comes from `setInitFlow`, here the squared diameter. -/
theorem initialize_spec_witness :
    ( Link.initialize (fun t => t.diameter * t.diameter)
        { Link.new "P1" with diameter := 2, status := LINK_CLOSED, flow := 7 } true).flow = 4 ∧
    ( Link.initialize (fun t => t.diameter * t.diameter)
        { Link.new "P1" with diameter := 2, status := LINK_CLOSED, flow := 7 } false).flow = 7 := by
  constructor
  · rw [(initialize_spec (fun t => t.diameter * t.diameter)
      { Link.new "P1" with diameter := 2, status := LINK_CLOSED, flow := 7 } true).2.2.2.2.2.1 rfl
      (by decide)]
    norm_num [Link.new]
  · rw [(initialize_spec (fun t => t.diameter * t.diameter)
      { Link.new "P1" with diameter := 2, status := LINK_CLOSED, flow := 7 } false).2.2.2.2.2.2 rfl]

/-- C8: when the status after `initialize(reInitFlow = true)` is CLOSED, the
flow is exactly `ZERO_FLOW` = 1e-6, which is positive and not zero, and the
leakage is 0, whatever flow and leakage were before. -/
theorem initialize_closed_flow (setInitFlow : Link → ℚ) (s : Link)
    (h : ( Link.initialize setInitFlow s true).status = LINK_CLOSED) :
    ( Link.initialize setInitFlow s true).flow = ZERO_FLOW ∧
    ( Link.initialize setInitFlow s true).flow = 1 / 1000000 ∧
    0 < ( Link.initialize setInitFlow s true).flow ∧
    ( Link.initialize setInitFlow s true).flow ≠ 0 ∧
    ( Link.initialize setInitFlow s true).leakage = 0 := by
  have hc : s.initStatus = LINK_CLOSED := by
    rw [initialize_eq] at h
    exact h
  have hf : ( Link.initialize setInitFlow s true).flow = ZERO_FLOW :=
    initialize_flow_closed setInitFlow s hc
  rw [hf]
  refine ⟨rfl, rfl, ?_, ?_, ?_⟩
  · norm_num [ZERO_FLOW]
  · norm_num [ZERO_FLOW]
  · rw [initialize_eq]

/-- C8 at a link configured closed that carried flow 7 and leakage 3. -/
theorem initialize_closed_flow_witness :
    ( Link.initialize (fun _ => 5) sampleClosedValve true).status = LINK_CLOSED ∧
    ( Link.initialize (fun _ => 5) sampleClosedValve true).flow = 1 / 1000000 :=
  ⟨rfl, (initialize_closed_flow (fun _ => 5) sampleClosedValve rfl).2.1⟩

/-! ### Calling `initialize` twice -/

theorem initialize_twice_no_reinit (setInitFlow : Link → ℚ) (s : Link) :
    Link.initialize setInitFlow ( Link.initialize setInitFlow s false) false =
      Link.initialize setInitFlow s false := by
  simp [initialize_eq]

theorem initialize_twice_closed (setInitFlow : Link → ℚ) (s : Link)
    (hc : s.initStatus = LINK_CLOSED) :
    Link.initialize setInitFlow ( Link.initialize setInitFlow s true) true =
      Link.initialize setInitFlow s true := by
  simp [initialize_eq, hc]

theorem initialize_twice_indep (setInitFlow : Link → ℚ) (s : Link)
    (hi : ∀ (t : Link) (f l : ℚ), setInitFlow { t with flow := f, leakage := l } = setInitFlow t) :
    Link.initialize setInitFlow ( Link.initialize setInitFlow s true) true =
      Link.initialize setInitFlow s true := by
  by_cases hc : s.initStatus = LINK_CLOSED
  · exact initialize_twice_closed setInitFlow s hc
  · have h1 := hi { s with status := s.initStatus, setting := s.initSetting }
      (setInitFlow { s with status := s.initStatus, setting := s.initSetting }) 0
    simp only [initialize_eq, if_pos, if_neg hc, if_true] at h1 ⊢
    rw [h1]

theorem initialize_true_open (setInitFlow : Link → ℚ) (s : Link)
    (hc : ¬ s.initStatus = LINK_CLOSED) :
    Link.initialize setInitFlow s true =
      { s with
        status := s.initStatus
        setting := s.initSetting
        flow := setInitFlow { s with status := s.initStatus, setting := s.initSetting }
        leakage := 0 } := by
  rw [initialize_eq]
  simp [hc]

/-- Two calls of `initialize(true)` on a link not configured closed agree with
one exactly when the function in the place of `setInitFlow`, applied to the
state the first call produced, returns the flow that state has. -/
theorem initialize_twice_open_iff (setInitFlow : Link → ℚ) (s : Link)
    (hc : ¬ s.initStatus = LINK_CLOSED) :
    Link.initialize setInitFlow ( Link.initialize setInitFlow s true) true =
        Link.initialize setInitFlow s true ↔
      setInitFlow ( Link.initialize setInitFlow s true) =
        ( Link.initialize setInitFlow s true).flow := by
  have hc2 : ¬ ( Link.initialize setInitFlow s true).initStatus = LINK_CLOSED := by
    rw [initialize_true_open setInitFlow s hc]
    exact hc
  have hself : ({ ( Link.initialize setInitFlow s true) with
        status := ( Link.initialize setInitFlow s true).initStatus
        setting := ( Link.initialize setInitFlow s true).initSetting } : Link) =
      Link.initialize setInitFlow s true := by
    rw [initialize_true_open setInitFlow s hc]
  constructor
  · intro h
    have hf := congrArg Link.flow h
    rw [initialize_true_open setInitFlow ( Link.initialize setInitFlow s true) hc2, hself] at hf
    exact hf
  · intro h
    rw [initialize_true_open setInitFlow ( Link.initialize setInitFlow s true) hc2, hself, h]
    rw [initialize_true_open setInitFlow s hc]

theorem initialize_twice_fresh (estimate : LinkConfig → ℚ) (s : Link) (b : Bool) :
    Link.initialize (freshInitFlow estimate) ( Link.initialize (freshInitFlow estimate) s b) b =
      Link.initialize (freshInitFlow estimate) s b := by
  cases b with
  | false => exact initialize_twice_no_reinit _ s
  | true => exact initialize_twice_indep _ s (fun _ _ _ => rfl)

/-- Idempotence of `initialize` for any function in the place of `setInitFlow`
under one of three sufficient conditions: the flag is false, the configured
initial status is CLOSED, or the function does not depend on the current flow
and leakage of the link. -/
theorem initialize_twice_of_cases (setInitFlow : Link → ℚ) (s : Link) (reInitFlow : Bool)
    (h : reInitFlow = false ∨ s.initStatus = LINK_CLOSED ∨
      ∀ (t : Link) (f l : ℚ), setInitFlow { t with flow := f, leakage := l } = setInitFlow t) :
    Link.initialize setInitFlow ( Link.initialize setInitFlow s reInitFlow) reInitFlow =
      Link.initialize setInitFlow s reInitFlow := by
  cases reInitFlow with
  | false => exact initialize_twice_no_reinit setInitFlow s
  | true =>
    rcases h with h | h | h
    · exact absurd h (by decide)
    · exact initialize_twice_closed setInitFlow s h
    · exact initialize_twice_indep setInitFlow s h

/-- C9: `initialize` is idempotent. With the variant's `setInitFlow` a fresh
initial flow estimate (computed from the link's identity and configuration),
for every link state and each value of `reInitFlow`, calling
`initialize(reInitFlow)` twice in a row yields the same link state as calling
it once. More generally, for any function in the place of `setInitFlow`, the
two calls agree with one exactly when `reInitFlow` is false, or the configured
initial status is CLOSED, or that function, applied to the state the first
call produced, returns the flow that state has. -/
theorem initialize_idempotent (estimate : LinkConfig → ℚ) (setInitFlow : Link → ℚ) (s : Link)
    (reInitFlow : Bool) :
    Link.initialize (freshInitFlow estimate)
        ( Link.initialize (freshInitFlow estimate) s reInitFlow) reInitFlow =
      Link.initialize (freshInitFlow estimate) s reInitFlow ∧
    ( Link.initialize setInitFlow ( Link.initialize setInitFlow s reInitFlow) reInitFlow =
        Link.initialize setInitFlow s reInitFlow ↔
      (reInitFlow = false ∨ s.initStatus = LINK_CLOSED ∨
        setInitFlow ( Link.initialize setInitFlow s true) =
          ( Link.initialize setInitFlow s true).flow)) := by
  refine ⟨initialize_twice_fresh estimate s reInitFlow, ?_⟩
  cases reInitFlow with
  | false => exact ⟨fun _ => Or.inl rfl, fun _ => initialize_twice_no_reinit setInitFlow s⟩
  | true =>
    by_cases hc : s.initStatus = LINK_CLOSED
    · exact ⟨fun _ => Or.inr (Or.inl hc), fun _ => initialize_twice_closed setInitFlow s hc⟩
    · constructor
      · intro h
        exact Or.inr (Or.inr ((initialize_twice_open_iff setInitFlow s hc).mp h))
      · intro h
        rcases h with h | h | h
        · exact absurd h (by decide)
        · exact absurd h hc
        · exact (initialize_twice_open_iff setInitFlow s hc).mpr h

/-- C9 at an open pipe of diameter 2 carrying flow 7 and leakage 3, whose
initial flow estimate is the squared diameter: one call gives flow 4 and
leakage 0, and a second call gives the same state. -/
theorem initialize_idempotent_witness :
    ( Link.initialize (freshInitFlow (fun c => c.diameter * c.diameter))
        sampleOpenPipe true).flow = 4 ∧
    Link.initialize (freshInitFlow (fun c => c.diameter * c.diameter))
        ( Link.initialize (freshInitFlow (fun c => c.diameter * c.diameter))
          sampleOpenPipe true) true =
      Link.initialize (freshInitFlow (fun c => c.diameter * c.diameter)) sampleOpenPipe true :=
  ⟨by norm_num [initialize_eq, freshInitFlow, Link.config, sampleOpenPipe, Link.new, LINK_OPEN,
      LINK_CLOSED],
   (initialize_idempotent (fun c => c.diameter * c.diameter) (fun _ => 0) sampleOpenPipe true).1⟩

/-! ### The flow of a closed link along call sequences -/

theorem initialize_closed_inv (setInitFlow : Link → ℚ) (s : Link) (b : Bool)
    (h : b = true ∨ (s.initStatus = LINK_CLOSED → s.flow = ZERO_FLOW)) :
    ( Link.initialize setInitFlow s b).status = ( Link.initialize setInitFlow s b).initStatus ∧
    (( Link.initialize setInitFlow s b).initStatus = LINK_CLOSED →
      ( Link.initialize setInitFlow s b).flow = ZERO_FLOW) := by
  have hi : ( Link.initialize setInitFlow s b).initStatus = s.initStatus := by
    rw [initialize_eq]
  have hs : ( Link.initialize setInitFlow s b).status = s.initStatus := by
    rw [initialize_eq]
  refine ⟨by rw [hs, hi], fun hc => ?_⟩
  rw [hi] at hc
  cases b with
  | true => exact initialize_flow_closed setInitFlow s hc
  | false =>
    have hf : ( Link.initialize setInitFlow s false).flow = s.flow := by
      rw [initialize_eq]
      rfl
    rw [hf]
    rcases h with h | h
    · exact absurd h (by decide)
    · exact h hc

theorem apply_call_closed_inv (setInitFlow : Link → ℚ) (getRe : ℚ → ℚ → ℚ) (s : Link)
    (op : LinkOp) (hcall : LinkOp.isCall op = true)
    (h : op = LinkOp.callInitialize true ∨
      (s.status = s.initStatus ∧ (s.initStatus = LINK_CLOSED → s.flow = ZERO_FLOW))) :
    (LinkOp.apply setInitFlow getRe s op).status = (LinkOp.apply setInitFlow getRe s op).initStatus ∧
    ((LinkOp.apply setInitFlow getRe s op).initStatus = LINK_CLOSED →
      (LinkOp.apply setInitFlow getRe s op).flow = ZERO_FLOW) := by
  cases op with
  | callInitialize b =>
    apply initialize_closed_inv setInitFlow s b
    rcases h with h | h
    · left
      injection h
    · exact Or.inr h.2
  | callSetFlowThreshold v =>
    rcases h with h | h
    · exact absurd h (by simp)
    · exact h
  | callReduceFlowThreshold =>
    rcases h with h | h
    · exact absurd h (by simp)
    · show (Link.reduceFlowThreshold s).2.status = (Link.reduceFlowThreshold s).2.initStatus ∧
        ((Link.reduceFlowThreshold s).2.initStatus = LINK_CLOSED →
          (Link.reduceFlowThreshold s).2.flow = ZERO_FLOW)
      obtain ⟨r1, r2, _, r4⟩ := reduce_frame s
      rw [r1, r2, r4]
      exact h
  | writeFlow q => simp [LinkOp.isCall] at hcall
  | writeStatus st => simp [LinkOp.isCall] at hcall

theorem runOps_calls_closed_inv (setInitFlow : Link → ℚ) (getRe : ℚ → ℚ → ℚ)
    (ops : List LinkOp) :
    ∀ s : Link, (∀ op ∈ ops, LinkOp.isCall op = true) →
      (LinkOp.callInitialize true ∈ ops ∨
        (s.status = s.initStatus ∧ (s.initStatus = LINK_CLOSED → s.flow = ZERO_FLOW))) →
      (runOps setInitFlow getRe s ops).status = (runOps setInitFlow getRe s ops).initStatus ∧
      ((runOps setInitFlow getRe s ops).initStatus = LINK_CLOSED →
        (runOps setInitFlow getRe s ops).flow = ZERO_FLOW) := by
  induction ops with
  | nil =>
    intro s _ h
    rcases h with h | h
    · simp at h
    · exact h
  | cons op ops ih =>
    intro s hcalls h
    rw [runOps_cons]
    apply ih _ (fun o ho => hcalls o (List.mem_cons_of_mem _ ho))
    have hcall : LinkOp.isCall op = true := hcalls op (List.mem_cons_self _ _)
    rcases h with h | h
    · rcases List.mem_cons.mp h with h | h
      · exact Or.inr (apply_call_closed_inv setInitFlow getRe s op hcall (Or.inl h.symm))
      · exact Or.inl h
    · exact Or.inr (apply_call_closed_inv setInitFlow getRe s op hcall (Or.inr h))

/-- A link configured closed keeps the constructor's flow 0 through
`initialize(false)`: the closed flow is only set by `initialize(true)`. -/
theorem closed_flow_needs_reinit :
    (runOps (fun _ => 0) (fun _ _ => 0) { Link.new "V1" with initStatus := LINK_CLOSED }
        [LinkOp.callInitialize false]).status = LINK_CLOSED ∧
    (runOps (fun _ => 0) (fun _ _ => 0) { Link.new "V1" with initStatus := LINK_CLOSED }
        [LinkOp.callInitialize false]).flow = 0 := by
  simp [runOps, LinkOp.apply, initialize_eq, Link.new]

/-- C10, as stated, fails: the freshly constructed link has status 0, which is
CLOSED, and flow exactly 0; it stays so through `setFlowThreshold` and
`reduceFlowThreshold`. -/
theorem closed_flow_fresh_counterexample :
    ((runOps (fun _ => 0) (fun _ _ => 0) (Link.new "P1") []).status = LINK_CLOSED ∧
      (runOps (fun _ => 0) (fun _ _ => 0) (Link.new "P1") []).flow = 0) ∧
    ((runOps (fun _ => 0) (fun _ _ => 0) (Link.new "P1")
        [LinkOp.callSetFlowThreshold 1, LinkOp.callReduceFlowThreshold]).status = LINK_CLOSED ∧
      (runOps (fun _ => 0) (fun _ _ => 0) (Link.new "P1")
        [LinkOp.callSetFlowThreshold 1, LinkOp.callReduceFlowThreshold]).flow = 0) := by
  constructor
  · simp [runOps, Link.new, LINK_CLOSED]
  · simp [runOps, LinkOp.apply, Link.setFlowThreshold, Link.reduceFlowThreshold, Link.new,
      LINK_CLOSED, LINK_OPEN]

/-- C10, amended: from any link state, in particular the freshly constructed
link with any configured initial status, after a sequence of `initialize`,
`setFlowThreshold` and `reduceFlowThreshold` calls that contains a call
`initialize(true)`: when the status is CLOSED the flow is exactly `ZERO_FLOW`,
of magnitude 1e-6 and not zero. -/
theorem closed_flow_invariant (setInitFlow : Link → ℚ) (getRe : ℚ → ℚ → ℚ) (s : Link)
    (ops : List LinkOp) (hcalls : ∀ op ∈ ops, LinkOp.isCall op = true)
    (hinit : LinkOp.callInitialize true ∈ ops)
    (hclosed : (runOps setInitFlow getRe s ops).status = LINK_CLOSED) :
    (runOps setInitFlow getRe s ops).flow = ZERO_FLOW ∧
    |(runOps setInitFlow getRe s ops).flow| = 1 / 1000000 ∧
    (runOps setInitFlow getRe s ops).flow ≠ 0 := by
  obtain ⟨h1, h2⟩ := runOps_calls_closed_inv setInitFlow getRe ops s hcalls (Or.inl hinit)
  have hf : (runOps setInitFlow getRe s ops).flow = ZERO_FLOW := h2 (by rw [← h1]; exact hclosed)
  rw [hf]
  refine ⟨rfl, ?_, ?_⟩
  · norm_num [ZERO_FLOW, abs_of_pos]
  · norm_num [ZERO_FLOW]

/-- C10, amended, at a valve configured closed: after `initialize(false)`,
`initialize(true)`, `setFlowThreshold` and `reduceFlowThreshold` its status is
CLOSED and its flow is 1e-6. -/
theorem closed_flow_invariant_witness :
    (runOps (fun _ => 5) (fun q v => 400 * q / v) sampleClosedValve
        [LinkOp.callInitialize false, LinkOp.callInitialize true, LinkOp.callSetFlowThreshold 1,
         LinkOp.callReduceFlowThreshold]).status = LINK_CLOSED ∧
    (runOps (fun _ => 5) (fun q v => 400 * q / v) sampleClosedValve
        [LinkOp.callInitialize false, LinkOp.callInitialize true, LinkOp.callSetFlowThreshold 1,
         LinkOp.callReduceFlowThreshold]).flow = ZERO_FLOW :=
  ⟨by simp [runOps, LinkOp.apply, Link.setFlowThreshold, Link.reduceFlowThreshold,
      initialize_eq, sampleClosedValve, Link.new, LINK_CLOSED, LINK_OPEN],
   (closed_flow_invariant (fun _ => 5) (fun q v => 400 * q / v) sampleClosedValve
      [LinkOp.callInitialize false, LinkOp.callInitialize true, LinkOp.callSetFlowThreshold 1,
       LinkOp.callReduceFlowThreshold]
      (by simp [LinkOp.isCall]) (by simp)
      (by simp [runOps, LinkOp.apply, Link.setFlowThreshold, Link.reduceFlowThreshold,
        initialize_eq, sampleClosedValve, Link.new, LINK_CLOSED, LINK_OPEN])).1⟩

/-! ## `writeStatusChange` -/

theorem linkStatusWordsAt_of_range (i : Int) (h0 : 0 ≤ i) (h3 : i ≤ 3) :
    linkStatusWordsAt i = some (specStatusLabel i) := by
  have h : i = 0 ∨ i = 1 ∨ i = 2 ∨ i = 3 := by omega
  rcases h with h | h | h | h <;> subst h <;> rfl

theorem linkStatusWordsAt_none (i : Int) (h : i < 0 ∨ 3 < i) : linkStatusWordsAt i = none := by
  unfold linkStatusWordsAt
  rcases h with h | h
  · rw [if_neg (by omega)]
  · rw [if_pos (by omega)]
    have h4 : 4 ≤ i.toNat := by omega
    simp [linkStatusWords, List.getElem?_eq_none, h4]

theorem linkStatusWordsAt_isSome (i : Int) :
    (linkStatusWordsAt i).isSome = true ↔ (0 ≤ i ∧ i ≤ 3) := by
  constructor
  · intro h
    by_contra hc
    have hn : linkStatusWordsAt i = none := linkStatusWordsAt_none i (by omega)
    rw [hn] at h
    simp at h
  · intro h
    rw [linkStatusWordsAt_of_range i h.1 h.2]
    rfl

theorem writeStatusChange_of_range (typeStr : String) (s : Link) (oldStatus : Int)
    (ho0 : 0 ≤ oldStatus) (ho3 : oldStatus ≤ 3) (hs0 : 0 ≤ s.status) (hs3 : s.status ≤ 3) :
    Link.writeStatusChange typeStr s oldStatus =
      some ("          " ++ typeStr ++ " " ++ s.name ++ " status changed from " ++
              specStatusLabel oldStatus ++ " to " ++ specStatusLabel s.status, s) := by
  unfold Link.writeStatusChange
  rw [linkStatusWordsAt_of_range oldStatus ho0 ho3, linkStatusWordsAt_of_range s.status hs0 hs3]
  rfl

theorem writeStatusChange_isSome (typeStr : String) (s : Link) (oldStatus : Int) :
    (Link.writeStatusChange typeStr s oldStatus).isSome = true ↔
      ((0 ≤ oldStatus ∧ oldStatus ≤ 3) ∧ (0 ≤ s.status ∧ s.status ≤ 3)) := by
  constructor
  · intro h
    unfold Link.writeStatusChange at h
    cases ho : linkStatusWordsAt oldStatus with
    | none => rw [ho] at h; simp at h
    | some a =>
      cases hn : linkStatusWordsAt s.status with
      | none => rw [ho, hn] at h; simp at h
      | some b =>
        exact ⟨(linkStatusWordsAt_isSome oldStatus).mp (by rw [ho]; rfl),
          (linkStatusWordsAt_isSome s.status).mp (by rw [hn]; rfl)⟩
  · intro h
    rw [writeStatusChange_of_range typeStr s oldStatus h.1.1 h.1.2 h.2.1 h.2.2]
    rfl

theorem writeStatusChange_state (typeStr : String) (s : Link) (oldStatus : Int)
    (r : String × Link) (h : Link.writeStatusChange typeStr s oldStatus = some r) : r.2 = s := by
  have hr := (writeStatusChange_isSome typeStr s oldStatus).mp (by rw [h]; rfl)
  rw [writeStatusChange_of_range typeStr s oldStatus hr.1.1 hr.1.2 hr.2.1 hr.2.2] at h
  injection h with h
  rw [← h]

/-- C11: for every `oldStatus` and every current status among CLOSED = 0,
OPEN = 1, ACTIVE = 2, TEMP_CLOSED = 3, equal or not, `writeStatusChange`
succeeds, leaves the link state unchanged and returns ten spaces, the type
label, a space, the name, " status changed from ", the label of `oldStatus`,
" to " and the label of the current status. -/
theorem writeStatusChange_spec (typeStr : String) (s : Link) (oldStatus : Int)
    (ho : 0 ≤ oldStatus ∧ oldStatus ≤ 3) (hs : 0 ≤ s.status ∧ s.status ≤ 3) :
    Link.writeStatusChange typeStr s oldStatus =
      some ("          " ++ typeStr ++ " " ++ s.name ++ " status changed from " ++
              specStatusLabel oldStatus ++ " to " ++ specStatusLabel s.status, s) :=
  writeStatusChange_of_range typeStr s oldStatus ho.1 ho.2 hs.1 hs.2

/-- C11 at `oldStatus` = OPEN for the closed pipe P1 with type label "Pipe". -/
theorem writeStatusChange_spec_witness :
    Link.writeStatusChange "Pipe" sampleClosedPipe 1 =
      some ("          Pipe P1 status changed from OPEN to CLOSED", sampleClosedPipe) := by
  rw [writeStatusChange_spec "Pipe" sampleClosedPipe 1 (by decide) (by decide)]
  rfl

/-! ## `factory` -/

/-- C12: for every discriminant that is none of `PIPE`, `PUMP`, `VALVE`, every
name and every arena, `factory` returns the null pointer, constructs nothing
and leaves the arena as it was: no allocation is requested. -/
theorem factory_rejects_unknown (codes : LinkTypeCodes) (sizeOf : LinkVariant → Nat)
    (type_ : Int) (name_ : String) (memPool : MemPool)
    (h1 : type_ ≠ codes.PIPE) (h2 : type_ ≠ codes.PUMP) (h3 : type_ ≠ codes.VALVE) :
    (Link.factory codes sizeOf type_ name_ memPool).1 = none ∧
    (Link.factory codes sizeOf type_ name_ memPool).2 = memPool ∧
    (Link.factory codes sizeOf type_ name_ memPool).2.requests = memPool.requests := by
  unfold Link.factory
  rw [if_neg h1, if_neg h2, if_neg h3]
  exact ⟨rfl, rfl, rfl⟩

/-- C12 at the discriminant 7 with enumerators 0, 1, 2 and an arena that has
served one request. -/
theorem factory_rejects_unknown_witness :
    Link.factory sampleCodes sampleSizeOf 7 "X1" { requests := [200] } =
      (none, { requests := [200] }) :=
  Prod.ext
    (factory_rejects_unknown sampleCodes sampleSizeOf 7 "X1" { requests := [200] }
      (by decide) (by decide) (by decide)).1
    (factory_rejects_unknown sampleCodes sampleSizeOf 7 "X1" { requests := [200] }
      (by decide) (by decide) (by decide)).2.1

theorem factory_pipe (codes : LinkTypeCodes) (sizeOf : LinkVariant → Nat) (name_ : String)
    (memPool : MemPool) :
    Link.factory codes sizeOf codes.PIPE name_ memPool =
      (some (LinkVariant.construct LinkVariant.Pipe (memPool.alloc (sizeOf LinkVariant.Pipe)).1 name_),
        (memPool.alloc (sizeOf LinkVariant.Pipe)).2) := by
  unfold Link.factory
  rw [if_pos rfl]

theorem factory_pump (codes : LinkTypeCodes) (sizeOf : LinkVariant → Nat) (name_ : String)
    (memPool : MemPool) :
    Link.factory codes sizeOf codes.PUMP name_ memPool =
      (some (LinkVariant.construct LinkVariant.Pump (memPool.alloc (sizeOf LinkVariant.Pump)).1 name_),
        (memPool.alloc (sizeOf LinkVariant.Pump)).2) := by
  unfold Link.factory
  rw [if_neg (Ne.symm codes.distinct.1), if_pos rfl]

theorem factory_valve (codes : LinkTypeCodes) (sizeOf : LinkVariant → Nat) (name_ : String)
    (memPool : MemPool) :
    Link.factory codes sizeOf codes.VALVE name_ memPool =
      (some (LinkVariant.construct LinkVariant.Valve (memPool.alloc (sizeOf LinkVariant.Valve)).1 name_),
        (memPool.alloc (sizeOf LinkVariant.Valve)).2) := by
  unfold Link.factory
  rw [if_neg (Ne.symm codes.distinct.2.1), if_neg (Ne.symm codes.distinct.2.2), if_pos rfl]

theorem factory_codeOf (codes : LinkTypeCodes) (sizeOf : LinkVariant → Nat) (v : LinkVariant)
    (name_ : String) (memPool : MemPool) :
    Link.factory codes sizeOf (codes.codeOf v) name_ memPool =
      (some (LinkVariant.construct v (memPool.alloc (sizeOf v)).1 name_),
        (memPool.alloc (sizeOf v)).2) := by
  cases v
  · exact factory_pipe codes sizeOf name_ memPool
  · exact factory_pump codes sizeOf name_ memPool
  · exact factory_valve codes sizeOf name_ memPool

/-- C13: for each variant `v` among Pipe, Pump, Valve, requested through its
discriminant `PIPE`, `PUMP`, `VALVE`, and every name, `factory` returns a
non-null object of exactly that variant whose base is the link constructed
with that name, placed in the storage the arena hands out next; the arena's
requests afterwards are the earlier ones followed by the single size of that
variant. The type label of a pipe is "Pipe". -/
theorem factory_constructs (codes : LinkTypeCodes) (sizeOf : LinkVariant → Nat) (v : LinkVariant)
    (name_ : String) (memPool : MemPool) :
    (Link.factory codes sizeOf (codes.codeOf v) name_ memPool).1 =
      some { variant := v, storage := memPool.requests.sum, base := Link.new name_ } ∧
    (Link.factory codes sizeOf (codes.codeOf v) name_ memPool).2 =
      { requests := memPool.requests ++ [sizeOf v] } ∧
    (Link.new name_).name = name_ ∧
    LinkVariant.typeStr LinkVariant.Pipe = "Pipe" := by
  rw [factory_codeOf]
  exact ⟨rfl, rfl, rfl, rfl⟩

/-- C13 for a pipe named "P1" requested from an empty arena, with enumerators
0, 1, 2 and a pipe of 200 bytes. -/
theorem factory_constructs_witness :
    (Link.factory sampleCodes sampleSizeOf 0 "P1" { requests := [] }).1 =
      some { variant := LinkVariant.Pipe, storage := 0, base := Link.new "P1" } ∧
    (Link.factory sampleCodes sampleSizeOf 0 "P1" { requests := [] }).2 = { requests := [200] } :=
  ⟨(factory_constructs sampleCodes sampleSizeOf LinkVariant.Pipe "P1" { requests := [] }).1,
   (factory_constructs sampleCodes sampleSizeOf LinkVariant.Pipe "P1" { requests := [] }).2.1⟩

/-- The three discriminants at concrete enumerators 0, 1, 2: a pipe named "P1"
from an empty arena, then a pump and a valve from the arena that follows. -/
theorem factory_example :
    Link.factory sampleCodes sampleSizeOf 0 "P1" { requests := [] } =
      (some { variant := LinkVariant.Pipe, storage := 0, base := Link.new "P1" },
        { requests := [200] }) ∧
    Link.factory sampleCodes sampleSizeOf 1 "U1" { requests := [200] } =
      (some { variant := LinkVariant.Pump, storage := 200, base := Link.new "U1" },
        { requests := [200, 240] }) ∧
    Link.factory sampleCodes sampleSizeOf 2 "V1" { requests := [200, 240] } =
      (some { variant := LinkVariant.Valve, storage := 440, base := Link.new "V1" },
        { requests := [200, 240, 216] }) := by
  refine ⟨?_, ?_, ?_⟩ <;> decide

/-! ## Status and configuration along member function calls -/

theorem isLinkStatus_range (st : Int) : isLinkStatus st ↔ (0 ≤ st ∧ st ≤ 3) := by
  unfold isLinkStatus LINK_CLOSED LINK_OPEN VALVE_ACTIVE TEMP_CLOSED
  omega

theorem step_some_of_range (setInitFlow : Link → ℚ) (getRe : ℚ → ℚ → ℚ) (typeStr : String)
    (s : Link) (c : LinkCall)
    (h : ∀ oldStatus, c = LinkCall.doWriteStatusChange oldStatus →
      (0 ≤ oldStatus ∧ oldStatus ≤ 3) ∧ (0 ≤ s.status ∧ s.status ≤ 3)) :
    ∃ t, LinkCall.step setInitFlow getRe typeStr s c = some t := by
  cases c with
  | doInitialize b => exact ⟨_, rfl⟩
  | doSetFlowThreshold v => exact ⟨_, rfl⟩
  | doReduceFlowThreshold => exact ⟨_, rfl⟩
  | doGetUnitHeadLoss => exact ⟨_, rfl⟩
  | doWriteStatusChange oldStatus =>
    obtain ⟨ho, hs⟩ := h oldStatus rfl
    refine ⟨s, ?_⟩
    show (Link.writeStatusChange typeStr s oldStatus).map Prod.snd = some s
    rw [writeStatusChange_of_range typeStr s oldStatus ho.1 ho.2 hs.1 hs.2]
    rfl

theorem step_frame (setInitFlow : Link → ℚ) (getRe : ℚ → ℚ → ℚ) (typeStr : String)
    (s t : Link) (c : LinkCall) (h : LinkCall.step setInitFlow getRe typeStr s c = some t) :
    t.diameter = s.diameter ∧ t.lossCoeff = s.lossCoeff ∧ t.initStatus = s.initStatus ∧
    t.initSetting = s.initSetting ∧ t.name = s.name ∧
    (t.status = s.status ∨ t.status = s.initStatus) := by
  cases c with
  | doInitialize b =>
    have ht : t = Link.initialize setInitFlow s b := (Option.some.inj h).symm
    rw [ht, initialize_eq]
    exact ⟨rfl, rfl, rfl, rfl, rfl, Or.inr rfl⟩
  | doSetFlowThreshold v =>
    have ht : t = Link.setFlowThreshold getRe s v := (Option.some.inj h).symm
    rw [ht]
    exact ⟨rfl, rfl, rfl, rfl, rfl, Or.inl rfl⟩
  | doReduceFlowThreshold =>
    have ht : t = (Link.reduceFlowThreshold s).2 := (Option.some.inj h).symm
    rw [ht]
    rcases reduce_cases s with h1 | ⟨_, h1⟩ <;> rw [h1] <;>
      exact ⟨rfl, rfl, rfl, rfl, rfl, Or.inl rfl⟩
  | doGetUnitHeadLoss =>
    have ht : t = s := (Option.some.inj h).symm
    rw [ht]
    exact ⟨rfl, rfl, rfl, rfl, rfl, Or.inl rfl⟩
  | doWriteStatusChange oldStatus =>
    have h1 : (Link.writeStatusChange typeStr s oldStatus).map Prod.snd = some t := h
    cases hw : Link.writeStatusChange typeStr s oldStatus with
    | none => rw [hw] at h1; simp at h1
    | some r =>
      rw [hw] at h1
      have ht : t = r.2 := (Option.some.inj h1).symm
      rw [ht, writeStatusChange_state typeStr s oldStatus r hw]
      exact ⟨rfl, rfl, rfl, rfl, rfl, Or.inl rfl⟩

theorem runCalls_status (setInitFlow : Link → ℚ) (getRe : ℚ → ℚ → ℚ) (typeStr : String)
    (cs : List LinkCall) :
    ∀ s t : Link, isLinkStatus s.status → isLinkStatus s.initStatus →
      runCalls setInitFlow getRe typeStr s cs = some t →
      isLinkStatus t.status ∧ isLinkStatus t.initStatus := by
  induction cs with
  | nil =>
    intro s t hs hi h
    have ht : t = s := (Option.some.inj h).symm
    rw [ht]
    exact ⟨hs, hi⟩
  | cons c cs ih =>
    intro s t hs hi h
    unfold runCalls at h
    cases hc : LinkCall.step setInitFlow getRe typeStr s c with
    | none => rw [hc] at h; simp at h
    | some u =>
      rw [hc] at h
      obtain ⟨_, _, f3, _, _, f6⟩ := step_frame setInitFlow getRe typeStr s u c hc
      apply ih u t _ _ h
      · rcases f6 with f6 | f6 <;> rw [f6] <;> assumption
      · rw [f3]; exact hi

theorem runCalls_some (setInitFlow : Link → ℚ) (getRe : ℚ → ℚ → ℚ) (typeStr : String)
    (cs : List LinkCall) :
    ∀ s : Link, isLinkStatus s.status → isLinkStatus s.initStatus →
      (∀ oldStatus, LinkCall.doWriteStatusChange oldStatus ∈ cs → 0 ≤ oldStatus ∧ oldStatus ≤ 3) →
      ∃ t, runCalls setInitFlow getRe typeStr s cs = some t := by
  induction cs with
  | nil => intro s _ _ _; exact ⟨s, rfl⟩
  | cons c cs ih =>
    intro s hs hi hold
    obtain ⟨u, hu⟩ := step_some_of_range setInitFlow getRe typeStr s c
      (fun o ho => ⟨hold o (by rw [ho]; exact List.mem_cons_self _ _),
        (isLinkStatus_range s.status).mp hs⟩)
    obtain ⟨_, _, f3, _, _, f6⟩ := step_frame setInitFlow getRe typeStr s u c hu
    have hus : isLinkStatus u.status := by
      rcases f6 with f6 | f6 <;> rw [f6] <;> assumption
    have hui : isLinkStatus u.initStatus := by rw [f3]; exact hi
    obtain ⟨t, ht⟩ := ih u hus hui (fun o ho => hold o (List.mem_cons_of_mem _ ho))
    refine ⟨t, ?_⟩
    unfold runCalls
    rw [hu]
    exact ht

/-- C14: for a link constructed with any name and configured with an initial
status among CLOSED, OPEN, ACTIVE, TEMP_CLOSED, the status of the fresh link is
one of the four values, and so is the status after any sequence of
`initialize`, `setFlowThreshold`, `reduceFlowThreshold`, `getUnitHeadLoss` and
`writeStatusChange` calls; the sequence runs to its end whenever every
`oldStatus` passed to `writeStatusChange` lies in 0..3. -/
theorem status_invariant (setInitFlow : Link → ℚ) (getRe : ℚ → ℚ → ℚ) (typeStr : String)
    (name_ : String) (st0 : Int) (cs : List LinkCall) (h0 : isLinkStatus st0) :
    isLinkStatus ({ Link.new name_ with initStatus := st0 } : Link).status ∧
    (∀ t, runCalls setInitFlow getRe typeStr { Link.new name_ with initStatus := st0 } cs = some t →
      isLinkStatus t.status) ∧
    ((∀ oldStatus, LinkCall.doWriteStatusChange oldStatus ∈ cs → 0 ≤ oldStatus ∧ oldStatus ≤ 3) →
      ∃ t, runCalls setInitFlow getRe typeStr { Link.new name_ with initStatus := st0 } cs = some t ∧
        isLinkStatus t.status) := by
  have hf : isLinkStatus ({ Link.new name_ with initStatus := st0 } : Link).status :=
    Or.inl rfl
  refine ⟨hf, fun t ht => ?_, fun hold => ?_⟩
  · exact (runCalls_status setInitFlow getRe typeStr cs _ t hf h0 ht).1
  · obtain ⟨t, ht⟩ := runCalls_some setInitFlow getRe typeStr cs _ hf h0 hold
    exact ⟨t, ht, (runCalls_status setInitFlow getRe typeStr cs _ t hf h0 ht).1⟩

/-- C14 for a valve configured TEMP_CLOSED, through one call of each of the
five member functions: the run ends in a state whose status is one of the four
values. -/
theorem status_invariant_witness :
    isLinkStatus 3 ∧
    ∃ t, runCalls (fun _ => 1) (fun q v => 400 * q / v) "Valve"
        { Link.new "V1" with initStatus := 3 }
        [LinkCall.doWriteStatusChange 1, LinkCall.doInitialize true,
         LinkCall.doSetFlowThreshold 1, LinkCall.doReduceFlowThreshold,
         LinkCall.doGetUnitHeadLoss, LinkCall.doWriteStatusChange 0] = some t ∧
      isLinkStatus t.status :=
  ⟨by decide,
   (status_invariant (fun _ => 1) (fun q v => 400 * q / v) "Valve" "V1" 3
      [LinkCall.doWriteStatusChange 1, LinkCall.doInitialize true,
       LinkCall.doSetFlowThreshold 1, LinkCall.doReduceFlowThreshold,
       LinkCall.doGetUnitHeadLoss, LinkCall.doWriteStatusChange 0] (by decide)).2.2
      (by
        intro o ho
        simp at ho
        omega)⟩

/-- C15: a call of `initialize`, `setFlowThreshold`, `reduceFlowThreshold`,
`getUnitHeadLoss` or `writeStatusChange` leaves diameter, lossCoeff, the
configured initial status, the configured initial setting and the name as
they were; every such call completes, except a `writeStatusChange` whose
lookup is out of range; and the constructor sets diameter and lossCoeff
to 0. -/
theorem config_frame (setInitFlow : Link → ℚ) (getRe : ℚ → ℚ → ℚ) (typeStr : String)
    (s : Link) (c : LinkCall) (name_ : String) :
    (∀ t, LinkCall.step setInitFlow getRe typeStr s c = some t →
      t.diameter = s.diameter ∧ t.lossCoeff = s.lossCoeff ∧ t.initStatus = s.initStatus ∧
      t.initSetting = s.initSetting ∧ t.name = s.name) ∧
    ((∀ oldStatus, c = LinkCall.doWriteStatusChange oldStatus →
        (0 ≤ oldStatus ∧ oldStatus ≤ 3) ∧ (0 ≤ s.status ∧ s.status ≤ 3)) →
      ∃ t, LinkCall.step setInitFlow getRe typeStr s c = some t) ∧
    Link.getUnitHeadLoss s = s.hLoss ∧
    (Link.new name_).diameter = 0 ∧ (Link.new name_).lossCoeff = 0 := by
  refine ⟨fun t ht => ?_, step_some_of_range setInitFlow getRe typeStr s c, rfl, rfl, rfl⟩
  obtain ⟨f1, f2, f3, f4, f5, _⟩ := step_frame setInitFlow getRe typeStr s t c ht
  exact ⟨f1, f2, f3, f4, f5⟩

/-- C15 at `initialize(true)` on the open pipe of diameter 2: the call
completes and the diameter is still 2. -/
theorem config_frame_witness :
    ∃ t, LinkCall.step (fun u => u.diameter * u.diameter) (fun q v => 400 * q / v) "Pipe"
        sampleOpenPipe (LinkCall.doInitialize true) = some t ∧ t.diameter = 2 := by
  obtain ⟨t, ht⟩ := (config_frame (fun u => u.diameter * u.diameter) (fun q v => 400 * q / v)
    "Pipe" sampleOpenPipe (LinkCall.doInitialize true) "P1").2.1 (fun o ho => by simp at ho)
  refine ⟨t, ht, ?_⟩
  rw [((config_frame (fun u => u.diameter * u.diameter) (fun q v => 400 * q / v)
    "Pipe" sampleOpenPipe (LinkCall.doInitialize true) "P1").1 t ht).1]
  rfl

/-! ## How far `reduceFlowThreshold` shrinks the working threshold -/

theorem reduce_true_lt (s : Link) (h : (Link.reduceFlowThreshold s).1 = true) :
    (Link.reduceFlowThreshold s).2.flowThresh < s.flowThresh := by
  obtain ⟨_, hm, hf⟩ := (reduce_true_iff s).mp h
  rw [reduce_true_state s h]
  have h0 : 0 ≤ |s.flow| := abs_nonneg _
  exact max_lt (by linarith) hm

theorem reduce_true_half (s : Link) (h : (Link.reduceFlowThreshold s).1 = true) :
    (Link.reduceFlowThreshold s).2.flowThresh ≤ max (s.flowThresh / 2) MIN_THRESH := by
  obtain ⟨_, _, hf⟩ := (reduce_true_iff s).mp h
  rw [reduce_true_state s h]
  exact max_le_max (by linarith) (le_refl _)

theorem reduce_false_of_le_min (s : Link) (h : s.flowThresh ≤ MIN_THRESH) :
    (Link.reduceFlowThreshold s).1 = false := by
  cases hr : (Link.reduceFlowThreshold s).1
  · rfl
  · exact absurd ((reduce_true_iff s).mp hr).2.1 (not_lt.mpr h)

/-- C16: `reduceFlowThreshold` never raises the working threshold, lowers it
strictly whenever it returns true, and never changes the nominal threshold,
the flow or the status. -/
theorem reduceFlowThreshold_only_shrinks (s : Link) :
    (Link.reduceFlowThreshold s).2.flowThresh ≤ s.flowThresh ∧
    ((Link.reduceFlowThreshold s).1 = true →
      (Link.reduceFlowThreshold s).2.flowThresh < s.flowThresh) ∧
    (Link.reduceFlowThreshold s).2.flowThresh0 = s.flowThresh0 ∧
    (Link.reduceFlowThreshold s).2.flow = s.flow ∧
    (Link.reduceFlowThreshold s).2.status = s.status :=
  ⟨reduce_thresh_le s, reduce_true_lt s, (reduce_frame s).2.2.1, (reduce_frame s).2.1,
    (reduce_frame s).1⟩

/-- C16 at the stalled pipe: the call returns true and the working threshold
drops from 1/2 to 1/8, strictly. -/
theorem reduceFlowThreshold_only_shrinks_witness :
    (Link.reduceFlowThreshold sampleStalledPipe).1 = true ∧
    (Link.reduceFlowThreshold sampleStalledPipe).2.flowThresh < sampleStalledPipe.flowThresh := by
  have h : (Link.reduceFlowThreshold sampleStalledPipe).1 = true := by
    norm_num [Link.reduceFlowThreshold, sampleStalledPipe, Link.new, MIN_THRESH, LINK_OPEN,
      abs_of_neg]
  exact ⟨h, (reduceFlowThreshold_only_shrinks sampleStalledPipe).2.1 h⟩

/-- C18: when `reduceFlowThreshold` returns true, a call that follows it
immediately, with flow and status as they were, returns false and leaves the
working threshold at `max(|flow|/2, MIN_THRESH)`. -/
theorem reduceFlowThreshold_once_in_a_row (s : Link)
    (h : (Link.reduceFlowThreshold s).1 = true) :
    (Link.reduceFlowThreshold (Link.reduceFlowThreshold s).2).1 = false ∧
    (Link.reduceFlowThreshold (Link.reduceFlowThreshold s).2).2.flowThresh =
      max (|s.flow| / 2) MIN_THRESH := by
  have hfalse : (Link.reduceFlowThreshold (Link.reduceFlowThreshold s).2).1 = false := by
    cases hr : (Link.reduceFlowThreshold (Link.reduceFlowThreshold s).2).1
    · rfl
    · obtain ⟨_, hm, hf⟩ := (reduce_true_iff _).mp hr
      rw [reduce_true_state s h] at hm hf
      have hf2 : |s.flow| < max (|s.flow| / 2) MIN_THRESH := hf
      have hm2 : MIN_THRESH < max (|s.flow| / 2) MIN_THRESH := hm
      have h0 : 0 ≤ |s.flow| := abs_nonneg _
      rcases lt_max_iff.mp hf2 with h1 | h1
      · linarith
      · rcases lt_max_iff.mp hm2 with h2 | h2
        · linarith
        · exact absurd h2 (lt_irrefl _)
  refine ⟨hfalse, ?_⟩
  rw [reduce_false_state _ hfalse, reduce_true_state s h]

/-- C18 at the stalled pipe: the first call returns true, the second returns
false and the working threshold stays at 1/8. -/
theorem reduceFlowThreshold_once_in_a_row_witness :
    (Link.reduceFlowThreshold sampleStalledPipe).1 = true ∧
    (Link.reduceFlowThreshold (Link.reduceFlowThreshold sampleStalledPipe).2).1 = false ∧
    (Link.reduceFlowThreshold (Link.reduceFlowThreshold sampleStalledPipe).2).2.flowThresh =
      1 / 8 := by
  have h : (Link.reduceFlowThreshold sampleStalledPipe).1 = true := by
    norm_num [Link.reduceFlowThreshold, sampleStalledPipe, Link.new, MIN_THRESH, LINK_OPEN,
      abs_of_neg]
  refine ⟨h, (reduceFlowThreshold_once_in_a_row sampleStalledPipe h).1, ?_⟩
  rw [(reduceFlowThreshold_once_in_a_row sampleStalledPipe h).2]
  norm_num [sampleStalledPipe, Link.new, MIN_THRESH, abs_of_neg]

/-! ## The number of successful reductions -/

theorem min_thresh_pos : 0 < MIN_THRESH := by
  unfold MIN_THRESH
  norm_num

theorem max_div_pow_mono (a b : ℚ) (k : ℕ) (h : a ≤ max b MIN_THRESH) :
    max (a / 2 ^ k) MIN_THRESH ≤ max (b / 2 ^ k) MIN_THRESH := by
  have hp : (0 : ℚ) < 2 ^ k := by positivity
  have h1 : (1 : ℚ) ≤ 2 ^ k := one_le_pow₀ (by norm_num)
  apply max_le _ (le_max_right _ _)
  rcases le_max_iff.mp h with h2 | h2
  · exact le_trans (div_le_div_of_nonneg_right h2 hp.le) (le_max_left _ _)
  · have h3 : a / 2 ^ k ≤ MIN_THRESH / 2 ^ k := div_le_div_of_nonneg_right h2 hp.le
    have h4 : MIN_THRESH / 2 ^ k ≤ MIN_THRESH := div_le_self min_thresh_pos.le h1
    exact le_trans (le_trans h3 h4) (le_max_right _ _)

theorem countReductions_cons (setInitFlow : Link → ℚ) (getRe : ℚ → ℚ → ℚ) (s : Link)
    (op : LinkOp) (ops : List LinkOp) :
    countReductions setInitFlow getRe s (op :: ops) =
      (if op = LinkOp.callReduceFlowThreshold ∧ (Link.reduceFlowThreshold s).1 = true
        then 1 else 0)
      + countReductions setInitFlow getRe (LinkOp.apply setInitFlow getRe s op) ops := rfl

/-- One step that is not a `setFlowThreshold` call: the working threshold does
not grow, and it is at most `max(old / 2, MIN_THRESH)` when the step is a
`reduceFlowThreshold` call that returns true. -/
theorem apply_noset_thresh (setInitFlow : Link → ℚ) (getRe : ℚ → ℚ → ℚ) (s : Link) (op : LinkOp)
    (h : ∀ v, op ≠ LinkOp.callSetFlowThreshold v) :
    (LinkOp.apply setInitFlow getRe s op).flowThresh ≤ s.flowThresh ∧
    (LinkOp.apply setInitFlow getRe s op).flowThresh ≤
      max (s.flowThresh / 2 ^ (if op = LinkOp.callReduceFlowThreshold ∧
        (Link.reduceFlowThreshold s).1 = true then 1 else 0)) MIN_THRESH ∧
    ((op = LinkOp.callReduceFlowThreshold ∧ (Link.reduceFlowThreshold s).1 = true) →
      MIN_THRESH < s.flowThresh) := by
  cases op with
  | callInitialize b =>
    have e : (LinkOp.apply setInitFlow getRe s (LinkOp.callInitialize b)).flowThresh =
        s.flowThresh := (initialize_thresh setInitFlow s b).1
    rw [e]
    refine ⟨le_refl _, ?_, fun hc => by simp at hc⟩
    simp
  | callSetFlowThreshold v => exact absurd rfl (h v)
  | callReduceFlowThreshold =>
    refine ⟨reduce_thresh_le s, ?_, fun hc => ((reduce_true_iff s).mp hc.2).2.1⟩
    cases hr : (Link.reduceFlowThreshold s).1
    · have e : (LinkOp.apply setInitFlow getRe s LinkOp.callReduceFlowThreshold).flowThresh =
          s.flowThresh := by
        show (Link.reduceFlowThreshold s).2.flowThresh = s.flowThresh
        rw [reduce_false_state s hr]
      rw [e]
      simp
    · have e := reduce_true_half s hr
      simpa using e
  | writeFlow q =>
    refine ⟨le_refl _, ?_, fun hc => by simp at hc⟩
    show s.flowThresh ≤ _
    simp
  | writeStatus st =>
    refine ⟨le_refl _, ?_, fun hc => by simp at hc⟩
    show s.flowThresh ≤ _
    simp

theorem runOps_noset_bound (setInitFlow : Link → ℚ) (getRe : ℚ → ℚ → ℚ) (ops : List LinkOp) :
    ∀ s : Link, (∀ v, LinkOp.callSetFlowThreshold v ∉ ops) →
      (runOps setInitFlow getRe s ops).flowThresh ≤
        max (s.flowThresh / 2 ^ countReductions setInitFlow getRe s ops) MIN_THRESH := by
  induction ops with
  | nil =>
    intro s _
    show s.flowThresh ≤ max (s.flowThresh / 2 ^ 0) MIN_THRESH
    simp
  | cons op ops ih =>
    intro s hno
    have hop : ∀ v, op ≠ LinkOp.callSetFlowThreshold v :=
      fun v hv => hno v (by rw [← hv]; exact List.mem_cons_self _ _)
    have hrest : ∀ v, LinkOp.callSetFlowThreshold v ∉ ops :=
      fun v hv => hno v (List.mem_cons_of_mem _ hv)
    rw [runOps_cons, countReductions_cons]
    refine le_trans (ih _ hrest) ?_
    refine le_trans (max_div_pow_mono _ _ _ (apply_noset_thresh setInitFlow getRe s op hop).2.1) ?_
    rw [div_div, ← pow_add]

theorem countReductions_bound (setInitFlow : Link → ℚ) (getRe : ℚ → ℚ → ℚ) (ops : List LinkOp) :
    ∀ s : Link, (∀ v, LinkOp.callSetFlowThreshold v ∉ ops) →
      0 < countReductions setInitFlow getRe s ops →
      MIN_THRESH * 2 ^ (countReductions setInitFlow getRe s ops - 1) < s.flowThresh := by
  induction ops with
  | nil =>
    intro s _ h
    simp [countReductions] at h
  | cons op ops ih =>
    intro s hno hpos
    have hop : ∀ v, op ≠ LinkOp.callSetFlowThreshold v :=
      fun v hv => hno v (by rw [← hv]; exact List.mem_cons_self _ _)
    have hrest : ∀ v, LinkOp.callSetFlowThreshold v ∉ ops :=
      fun v hv => hno v (List.mem_cons_of_mem _ hv)
    obtain ⟨a1, a2, a3⟩ := apply_noset_thresh setInitFlow getRe s op hop
    rw [countReductions_cons] at hpos ⊢
    by_cases hk : 0 < countReductions setInitFlow getRe (LinkOp.apply setInitFlow getRe s op) ops
    · have hi := ih _ hrest hk
      have h1 : (1 : ℚ) ≤ 2 ^ (countReductions setInitFlow getRe
          (LinkOp.apply setInitFlow getRe s op) ops - 1) := one_le_pow₀ (by norm_num)
      have hgt : MIN_THRESH < (LinkOp.apply setInitFlow getRe s op).flowThresh := by
        have := mul_le_mul_of_nonneg_left h1 min_thresh_pos.le
        linarith
      by_cases hc : op = LinkOp.callReduceFlowThreshold ∧ (Link.reduceFlowThreshold s).1 = true
      · rw [if_pos hc] at a2 ⊢
        have hhalf : (LinkOp.apply setInitFlow getRe s op).flowThresh ≤ s.flowThresh / 2 := by
          rcases le_max_iff.mp a2 with h2 | h2
          · simpa using h2
          · exact absurd hgt (not_lt.mpr h2)
        have e : 1 + countReductions setInitFlow getRe (LinkOp.apply setInitFlow getRe s op) ops - 1
            = (countReductions setInitFlow getRe (LinkOp.apply setInitFlow getRe s op) ops - 1) + 1 := by
          omega
        rw [e, pow_succ]
        linarith
      · rw [if_neg hc, Nat.zero_add]
        exact lt_of_lt_of_le hi a1
    · have hz : countReductions setInitFlow getRe (LinkOp.apply setInitFlow getRe s op) ops = 0 := by
        omega
      rw [hz] at hpos ⊢
      by_cases hc : op = LinkOp.callReduceFlowThreshold ∧ (Link.reduceFlowThreshold s).1 = true
      · rw [if_pos hc]
        simpa using a3 hc
      · rw [if_neg hc] at hpos
        exact absurd hpos (by decide)

/-- The sample run: three of its five `reduceFlowThreshold` calls return true
and the working threshold ends at the floor. -/
theorem sampleReductionRun_example :
    countReductions (fun _ => 0) (fun _ _ => 0) sampleStalledPipe sampleReductionRun = 3 ∧
    (runOps (fun _ => 0) (fun _ _ => 0) sampleStalledPipe sampleReductionRun).flowThresh =
      1 / 1000000 := by
  constructor
  · norm_num [countReductions, sampleReductionRun, LinkOp.apply, Link.reduceFlowThreshold,
      sampleStalledPipe, Link.new, MIN_THRESH, LINK_OPEN, abs_of_neg, abs_of_nonneg]
  · norm_num [runOps, sampleReductionRun, LinkOp.apply, Link.reduceFlowThreshold,
      sampleStalledPipe, Link.new, MIN_THRESH, LINK_OPEN, abs_of_neg, abs_of_nonneg]

/-- C17: a `reduceFlowThreshold` call that returns true leaves the working
threshold at most `max(old / 2, MIN_THRESH)`. Hence along any sequence of
steps without a `setFlowThreshold` call (reductions with writes of flow and
status between them), starting from working threshold `T`, after the `k` calls
that returned true the working threshold is at most `max(T / 2^k, MIN_THRESH)`;
when `T` equals `MIN_THRESH` no call returns true and the threshold stays
there; and `k` is bounded: if `k > 0` then `MIN_THRESH * 2^(k-1) < T`. -/
theorem reductions_bounded (setInitFlow : Link → ℚ) (getRe : ℚ → ℚ → ℚ) (s : Link)
    (ops : List LinkOp) (hno : ∀ v, LinkOp.callSetFlowThreshold v ∉ ops) :
    ((Link.reduceFlowThreshold s).1 = true →
      (Link.reduceFlowThreshold s).2.flowThresh ≤ max (s.flowThresh / 2) MIN_THRESH) ∧
    (runOps setInitFlow getRe s ops).flowThresh ≤
      max (s.flowThresh / 2 ^ countReductions setInitFlow getRe s ops) MIN_THRESH ∧
    (s.flowThresh = MIN_THRESH →
      (Link.reduceFlowThreshold s).1 = false ∧
      countReductions setInitFlow getRe s ops = 0 ∧
      (runOps setInitFlow getRe s ops).flowThresh = MIN_THRESH) ∧
    (0 < countReductions setInitFlow getRe s ops →
      MIN_THRESH * 2 ^ (countReductions setInitFlow getRe s ops - 1) < s.flowThresh) := by
  have hb := runOps_noset_bound setInitFlow getRe ops s hno
  have hc := countReductions_bound setInitFlow getRe ops s hno
  refine ⟨reduce_true_half s, hb, fun hm => ?_, hc⟩
  have hz : countReductions setInitFlow getRe s ops = 0 := by
    by_contra hne
    have hpos : 0 < countReductions setInitFlow getRe s ops := Nat.pos_of_ne_zero hne
    have h1 : (1 : ℚ) ≤ 2 ^ (countReductions setInitFlow getRe s ops - 1) :=
      one_le_pow₀ (by norm_num)
    have h2 := mul_le_mul_of_nonneg_left h1 min_thresh_pos.le
    have h3 := hc hpos
    rw [hm] at h3
    linarith
  refine ⟨reduce_false_of_le_min s (le_of_eq hm), hz, le_antisymm ?_ ?_⟩
  · rw [hz, hm] at hb
    simpa using hb
  · exact runOps_thresh_ge setInitFlow getRe ops s (Or.inl (le_of_eq hm.symm))

/-- C17 on the sample run from working threshold 1/2: three calls return true
and the final working threshold is at most `max((1/2) / 2^3, MIN_THRESH)`. -/
theorem reductions_bounded_witness :
    (∀ v, LinkOp.callSetFlowThreshold v ∉ sampleReductionRun) ∧
    (runOps (fun _ => 0) (fun _ _ => 0) sampleStalledPipe sampleReductionRun).flowThresh ≤
      max (sampleStalledPipe.flowThresh /
        2 ^ countReductions (fun _ => 0) (fun _ _ => 0) sampleStalledPipe sampleReductionRun)
        MIN_THRESH :=
  ⟨by simp [sampleReductionRun],
   (reductions_bounded (fun _ => 0) (fun _ _ => 0) sampleStalledPipe sampleReductionRun
      (by simp [sampleReductionRun])).2.1⟩

end Epanet
